import Mathlib

/-!
Shallow embedding of the Linear bidirectional sync engine
(`src/targets/linear-sync.ts`, `src/targets/linear-api.ts`,
`src/types/linear.ts` of the repository) and proofs about it.

Modelling conventions:
* ISO timestamp strings, file mtimes and `Date` values are abstracted to
  `Nat` (only their ordering and equality are used by the code).
* JavaScript string builtins (`split`, `toLowerCase`, `trim`, `trimEnd`,
  `padStart`, `String(n)`) are embedded char-by-char so that they reduce
  in the kernel.
* The frontmatter codec (`parseFrontmatter` / `formatFrontmatter`) is an
  external collaborator assumed lossless; a file is therefore modelled
  directly as its parsed form (a key-value record plus a body string).
* Node `path` calls (`dirname`, `basename`, `join`) are external; a path
  is modelled as a directory plus a filename.
* Asynchronous remote calls are modelled as an environment of functions
  returning `Except`; thrown exceptions are the `.error` case.  Because a
  caught exception in the engine keeps all side effects performed before
  the throw, errors carry the intermediate state.
-/

namespace LinearSync

/-! ## JavaScript string builtins, embedded char-level -/

def jsToLower (s : String) : String := String.mk (s.toList.map Char.toLower)

def splitCharList (sep : Char) : List Char → List (List Char)
  | [] => [[]]
  | c :: rest =>
    let r := splitCharList sep rest
    if c = sep then [] :: r
    else
      match r with
      | h :: t => (c :: h) :: t
      | [] => [[c]]

/-- Embedding of JS `s.split(sep)` for a one-character separator. -/
def jsSplit (s : String) (sep : Char) : List String :=
  (splitCharList sep s.toList).map String.mk

def isWsChar (c : Char) : Bool := c = ' ' ∨ c = '\t' ∨ c = '\n' ∨ c = '\r'

def jsTrimEnd (s : String) : String :=
  String.mk ((s.toList.reverse.dropWhile isWsChar).reverse)

def jsTrim (s : String) : String :=
  String.mk (((s.toList.dropWhile isWsChar).reverse.dropWhile isWsChar).reverse)

def digitChar (n : Nat) : Char := Char.ofNat (48 + n)

def natDigitsAux : Nat → Nat → List Char
  | 0, _ => []
  | fuel + 1, n =>
    if n < 10 then [digitChar n]
    else natDigitsAux fuel (n / 10) ++ [digitChar (n % 10)]

/-- Embedding of JS `String(n)` for a natural number. -/
def natToStr (n : Nat) : String := String.mk (natDigitsAux (n + 1) n)

/-- Embedding of JS `s.padStart(3, "0")`. -/
def padStart3 (s : String) : String :=
  if s.length < 3 then String.mk (List.replicate (3 - s.length) '0') ++ s else s

/-- Embedding of JS `parseInt(s, 10)` restricted to the non-negative inputs
the engine feeds it (`issue_id` digit strings); `none` models `NaN`. -/
def parseIntDigits (s : String) : Option Nat :=
  let ds := s.toList.takeWhile Char.isDigit
  if ds.isEmpty then none
  else some (ds.foldl (fun n c => n * 10 + (c.toNat - 48)) 0)

def strEndsWith (s suf : String) : Bool :=
  List.isSuffixOf suf.toList s.toList

/-! ## Data model (`src/types/linear.ts`) -/

structure StatusMap where
  pending : String
  ready : String
  in_progress : String
  complete : String
  cancelled : String
deriving DecidableEq, Repr

structure PriorityMap where
  p1 : Int
  p2 : Int
  p3 : Int
deriving DecidableEq, Repr

def DEFAULT_STATUS_MAP : StatusMap :=
  { pending := "Triage", ready := "Todo", in_progress := "In Progress",
    complete := "Done", cancelled := "Cancelled" }

def DEFAULT_PRIORITY_MAP : PriorityMap := { p1 := 1, p2 := 2, p3 := 3 }

structure LinearState where
  id : String
  name : String
  stype : String
deriving DecidableEq, Repr

structure StateRef where
  id : String
  name : String
deriving DecidableEq, Repr

structure UserRef where
  name : String
  displayName : String
deriving DecidableEq, Repr

structure LinearComment where
  id : String
  body : String
  createdAt : Nat
  updatedAt : Nat
  user : Option UserRef := none
deriving DecidableEq, Repr

structure LabelRef where
  id : String
  name : String
deriving DecidableEq, Repr

structure LinearIssue where
  id : String
  identifier : String
  title : String
  description : Option String := none
  state : StateRef
  priority : Int
  comments : Option (List LinearComment) := none
  labels : Option (List LabelRef) := none
  updatedAt : Nat
  createdAt : Nat := 0
deriving DecidableEq, Repr

structure LinearConfig where
  teamId : String
  teamKey : String
  projectId : Option String := none
  statusMap : Option StatusMap := none
  priorityMap : Option PriorityMap := none
deriving DecidableEq, Repr

structure TodoFrontmatter where
  status : String
  priority : String
  issue_id : String
  tags : List String := []
  dependencies : List String := []
  linear_id : Option String := none
  linear_synced_at : Option Nat := none
deriving DecidableEq, Repr

/-! ## Mapping helpers (`fileStatusToLinearState` and friends) -/

/-- Embedding of `(map as Record<string, string>)[status]`: lookup of a
status key in the closed five-key map; unknown keys give `undefined`. -/
def statusMapGet (m : StatusMap) (status : String) : Option String :=
  if status = "pending" then some m.pending
  else if status = "ready" then some m.ready
  else if status = "in_progress" then some m.in_progress
  else if status = "complete" then some m.complete
  else if status = "cancelled" then some m.cancelled
  else none

/-- Embedding of `Object.entries(map)` in declaration order of the
`StatusMap` type. -/
def statusMapEntries (m : StatusMap) : List (String × String) :=
  [("pending", m.pending), ("ready", m.ready), ("in_progress", m.in_progress),
   ("complete", m.complete), ("cancelled", m.cancelled)]

def priorityMapGet (m : PriorityMap) (p : String) : Option Int :=
  if p = "p1" then some m.p1
  else if p = "p2" then some m.p2
  else if p = "p3" then some m.p3
  else none

/-- JS truthiness for an optional string: `undefined` and `""` are falsy. -/
def truthyStr : Option String → Option String
  | some s => if s = "" then none else some s
  | none => none

def fileStatusToLinearState (status : String) (states : List LinearState)
    (config : LinearConfig) : Option LinearState :=
  let map := config.statusMap.getD DEFAULT_STATUS_MAP
  match truthyStr (statusMapGet map status) with
  | none => none
  | some targetName =>
    states.find? (fun s => jsToLower s.name = jsToLower targetName)

def linearStateToFileStatus (stateName : String) (config : LinearConfig) :
    Option String :=
  let map := config.statusMap.getD DEFAULT_STATUS_MAP
  ((statusMapEntries map).find?
    (fun e => jsToLower e.2 = jsToLower stateName)).map (·.1)

def filePriorityToLinear (priority : String) (config : LinearConfig) : Int :=
  let map := config.priorityMap.getD DEFAULT_PRIORITY_MAP
  (priorityMapGet map priority).getD 3

def linearPriorityToFile (priority : Int) (_config : LinearConfig) : String :=
  if priority ≤ 1 then "p1"
  else if priority = 2 then "p2"
  else "p3"

/-- Embedding of `body.match(/^#\s+(.+)/m)` on a single line: a leading
`#`, at least one whitespace character, then a non-empty remainder
(captured and then `.trim()`ed by `extractTitle`). -/
def lineTitleMatch (l : String) : Option String :=
  let cs := l.toList
  match cs with
  | '#' :: rest =>
    let afterWs := rest.dropWhile isWsChar
    if rest.length > afterWs.length ∧ afterWs.length > 0 then
      some (jsTrim (String.mk afterWs))
    else none
  | _ => none

def extractTitle (body : String) : String :=
  match (jsSplit body '\n').filterMap lineTitleMatch with
  | t :: _ => t
  | [] => "Untitled"

/-! ## Paths and file renaming -/

/-- A filesystem path, modelled as the directory part plus the basename;
Node's `path.dirname` / `path.basename` / `path.join` are the projections
and the constructor. -/
structure TPath where
  dir : String
  file : String
deriving DecidableEq, Repr

/-- Embedding of `path.basename(oldPath, ".md")`: the basename with a
trailing `.md` removed when present. -/
def stripMd (s : String) : String :=
  if strEndsWith s ".md" then String.mk (s.toList.take (s.toList.length - 3))
  else s

def renameTodoFile (oldPath : TPath) (newStatus newPriority : String) : TPath :=
  let dir := oldPath.dir
  let basename := stripMd oldPath.file
  let parts := jsSplit basename '-'
  if parts.length < 4 then oldPath
  else
    let issueId := parts.headD ""
    let description := "-".intercalate (parts.drop 3)
    ⟨dir, issueId ++ "-" ++ newStatus ++ "-" ++ newPriority ++ "-" ++
      description ++ ".md"⟩

/-- Embedding of the slug computation in `pullNewIssues` /
`importSingleIssue`: lower-case, collapse runs of non-alphanumerics to a
single hyphen, strip one leading and one trailing hyphen, cap at 50. -/
def slugChars : List Char → List Char
  | [] => []
  | c :: rest =>
    let r := slugChars rest
    if (c.isLower ∧ c.isAlpha) ∨ c.isDigit then c :: r
    else
      match r with
      | '-' :: _ => r
      | _ => '-' :: r

def slugify (title : String) : String :=
  let lowered := (jsToLower title).toList
  let collapsed := slugChars lowered
  let noLead := match collapsed with
    | '-' :: rest => rest
    | l => l
  let noTrail := match noLead.reverse with
    | '-' :: rest => rest.reverse
    | _ => noLead
  String.mk (noTrail.take 50)

/-! ## Files, frontmatter records and the mutation helpers -/

/-- Parsed frontmatter of a todo file (the key-value map side of the
external `parseFrontmatter` / `formatFrontmatter` codec); `none` models an
absent key. -/
structure FmData where
  status : Option String := none
  priority : Option String := none
  issue_id : Option String := none
  tags : List String := []
  dependencies : List String := []
  linear_id : Option String := none
  linear_synced_at : Option Nat := none
deriving DecidableEq, Repr

/-- A `Partial<TodoFrontmatter>` updates object: `none` models a key that
is absent from the object literal at the call site. -/
structure FmUpdates where
  status : Option String := none
  priority : Option String := none
  linear_id : Option String := none
  linear_synced_at : Option Nat := none
deriving DecidableEq, Repr

/-- Embedding of the object spread `merged = { ...data, ...updates }`. -/
def mergeFm (data : FmData) (u : FmUpdates) : FmData :=
  { data with
    status := u.status.orElse fun _ => data.status
    priority := u.priority.orElse fun _ => data.priority
    linear_id := u.linear_id.orElse fun _ => data.linear_id
    linear_synced_at := u.linear_synced_at.orElse fun _ => data.linear_synced_at }

structure FileNode where
  data : FmData
  body : String
  mtime : Nat
deriving DecidableEq, Repr

/-- The todos directory: the files it holds, in directory-walk order. -/
abbrev FS := List (TPath × FileNode)

structure TodoFile where
  path : TPath
  frontmatter : TodoFrontmatter
  body : String
deriving DecidableEq, Repr

def loadTodoFiles (fs : FS) : List TodoFile :=
  (fs.filter (fun e => strEndsWith e.1.file ".md")).filterMap fun e =>
    match truthyStr e.2.data.status, truthyStr e.2.data.priority,
        truthyStr e.2.data.issue_id with
    | some s, some p, some i =>
      some { path := e.1,
             frontmatter :=
               { status := s, priority := p, issue_id := i,
                 tags := e.2.data.tags,
                 dependencies := e.2.data.dependencies,
                 linear_id := truthyStr e.2.data.linear_id,
                 linear_synced_at := e.2.data.linear_synced_at },
             body := e.2.body }
    | _, _, _ => none

/-! ## The remote environment and the effect log -/

structure CreateInput where
  teamId : String
  title : String
  description : String
  priority : Int
  stateId : Option String := none
  parentId : Option String := none
  projectId : Option String := none
deriving DecidableEq, Repr

structure UpdateInput where
  title : Option String := none
  priority : Option Int := none
  stateId : Option String := none
deriving DecidableEq, Repr

/-- The Linear API client plus the ambient clock: `fetch` is
`getIssueByIdentifier`, `.error` models a thrown exception. `now` is the
value every `new Date()` in one pass reads (time is an external input). -/
structure Env where
  states : List LinearState
  fetch : String → Except String LinearIssue
  createIssue : CreateInput → Except String LinearIssue
  updateIssue : String → UpdateInput → Except String LinearIssue
  listIssues : Except String (List LinearIssue)
  now : Nat

/-- One observable side effect: a file write, a file rename, or an issued
remote mutation call. -/
inductive SyncEvent where
  | fileWrite (p : TPath) (d : FmData) (b : String)
  | fileRename (oldPath newPath : TPath)
  | remoteCreate (input : CreateInput)
  | remoteUpdate (issueId : String) (input : UpdateInput)
deriving DecidableEq, Repr

structure SyncState where
  fs : FS
  events : List SyncEvent
deriving DecidableEq, Repr

def readFile (fs : FS) (p : TPath) : Option FileNode :=
  (fs.find? (fun e => e.1 = p)).map (·.2)

def fsWrite (fs : FS) (p : TPath) (d : FmData) (b : String) (now : Nat) : FS :=
  if fs.any (fun e => e.1 = p) then
    fs.map (fun e => if e.1 = p then (p, ⟨d, b, now⟩) else e)
  else fs ++ [(p, ⟨d, b, now⟩)]

def fsRename (fs : FS) (oldP newP : TPath) : FS :=
  fs.map (fun e => if e.1 = oldP then (newP, e.2) else e)

def writeTextOp (env : Env) (st : SyncState) (p : TPath) (d : FmData)
    (b : String) : SyncState :=
  { fs := fsWrite st.fs p d b env.now, events := st.events ++ [.fileWrite p d b] }

def renameOp (st : SyncState) (oldP newP : TPath) : SyncState :=
  { fs := fsRename st.fs oldP newP, events := st.events ++ [.fileRename oldP newP] }

/-- Embedding of `readText` + `parseFrontmatter` (also used for
`fs.stat`): fails like a thrown `ENOENT` when the path is absent. -/
def readTextOp (st : SyncState) (p : TPath) :
    Except (String × SyncState) (FileNode × SyncState) :=
  match readFile st.fs p with
  | some n => .ok (n, st)
  | none => .error ("ENOENT: no such file " ++ p.file, st)

def createIssueOp (env : Env) (st : SyncState) (input : CreateInput) :
    Except (String × SyncState) (LinearIssue × SyncState) :=
  let st1 : SyncState := { st with events := st.events ++ [.remoteCreate input] }
  match env.createIssue input with
  | .ok issue => .ok (issue, st1)
  | .error e => .error (e, st1)

def updateIssueOp (env : Env) (st : SyncState) (issueId : String)
    (input : UpdateInput) : Except (String × SyncState) (LinearIssue × SyncState) :=
  let st1 : SyncState := { st with events := st.events ++ [.remoteUpdate issueId input] }
  match env.updateIssue issueId input with
  | .ok issue => .ok (issue, st1)
  | .error e => .error (e, st1)

/-! ## File mutation helpers (`updateTodoFrontmatter`) -/

def updateTodoFrontmatterOp (env : Env) (filePath : TPath) (updates : FmUpdates)
    (st : SyncState) : Except (String × SyncState) SyncState :=
  match readTextOp st filePath with
  | .error e => .error e
  | .ok (node, st) =>
    let merged := mergeFm node.data updates
    let merged :=
      if updates.linear_id.isSome ∨ updates.linear_synced_at.isSome then
        { merged with linear_synced_at := some (updates.linear_synced_at.getD env.now) }
      else merged
    .ok (writeTextOp env st filePath merged node.body)

/-! ## Push operations -/

def pushCreate (env : Env) (config : LinearConfig) (todo : TodoFile)
    (parentLinearId : Option String) (skipFileWrite : Bool) (st : SyncState) :
    Except (String × SyncState) (String × SyncState) :=
  let title := extractTitle todo.body
  let state := fileStatusToLinearState todo.frontmatter.status env.states config
  let priority := filePriorityToLinear todo.frontmatter.priority config
  match createIssueOp env st
      { teamId := config.teamId, title := title,
        description := jsTrim todo.body, priority := priority,
        stateId := state.map (·.id), parentId := parentLinearId,
        projectId := config.projectId } with
  | .error e => .error e
  | .ok (issue, st) =>
    if skipFileWrite then .ok (issue.identifier, st)
    else
      match updateTodoFrontmatterOp env todo.path
          { linear_id := some issue.identifier, linear_synced_at := some env.now } st with
      | .error e => .error e
      | .ok st => .ok (issue.identifier, st)

/-- The `input` object `pushUpdate` builds: keys are added only for
fields that differ from the fetched issue. -/
def pushUpdateInput (env : Env) (config : LinearConfig) (todo : TodoFile)
    (issue : LinearIssue) : UpdateInput :=
  let state := fileStatusToLinearState todo.frontmatter.status env.states config
  let priority := filePriorityToLinear todo.frontmatter.priority config
  let title := extractTitle todo.body
  { stateId :=
      match state with
      | some s => if s.id ≠ issue.state.id then some s.id else none
      | none => none,
    priority := if priority ≠ issue.priority then some priority else none,
    title := if title ≠ issue.title then some title else none }

def hasUpdateKeys (i : UpdateInput) : Bool :=
  i.title.isSome ∨ i.priority.isSome ∨ i.stateId.isSome

def pushUpdate (env : Env) (config : LinearConfig) (todo : TodoFile)
    (st : SyncState) : Except (String × SyncState) SyncState :=
  match truthyStr todo.frontmatter.linear_id with
  | none => .ok st
  | some lid =>
    match env.fetch lid with
    | .error e => .error (e, st)
    | .ok issue =>
      let input := pushUpdateInput env config todo issue
      let afterRemote : Except (String × SyncState) SyncState :=
        if hasUpdateKeys input then
          match updateIssueOp env st issue.id input with
          | .error e => .error e
          | .ok (_, st) => .ok st
        else .ok st
      match afterRemote with
      | .error e => .error e
      | .ok st =>
        updateTodoFrontmatterOp env todo.path
          { linear_synced_at := some env.now } st

/-! ## Pull operations -/

/-- Embedding of `String(data.status)`: a missing key stringifies to
`"undefined"`. -/
def fmStatusString (d : FmData) : String := d.status.getD "undefined"

def fmPriorityString (d : FmData) : String := d.priority.getD "undefined"

def pullStateFromIssue (env : Env) (config : LinearConfig) (issue : LinearIssue)
    (todoPath : TPath) (st : SyncState) :
    Except (String × SyncState) ((Bool × Option TPath) × SyncState) :=
  match readTextOp st todoPath with
  | .error e => .error e
  | .ok (node, st) =>
    let newStatus := linearStateToFileStatus issue.state.name config
    let newPriority := linearPriorityToFile issue.priority config
    let currentStatus := fmStatusString node.data
    let currentPriority := fmPriorityString node.data
    if newStatus = some currentStatus ∧ newPriority = currentPriority then
      let merged := { node.data with linear_synced_at := some env.now }
      .ok ((false, none), writeTextOp env st todoPath merged node.body)
    else
      let statusUpd : Option String :=
        match truthyStr newStatus with
        | some ns => if ns ≠ currentStatus then some ns else none
        | none => none
      let prioUpd : Option String :=
        if newPriority ≠ currentPriority then some newPriority else none
      let needsRename : Bool := statusUpd.isSome ∨ prioUpd.isSome
      let updates : FmUpdates :=
        { status := statusUpd, priority := prioUpd,
          linear_synced_at := some env.now }
      let merged := mergeFm node.data updates
      let st := writeTextOp env st todoPath merged node.body
      if needsRename then
        let finalStatus := statusUpd.getD currentStatus
        let finalPriority := prioUpd.getD currentPriority
        let newPath := renameTodoFile todoPath finalStatus finalPriority
        if newPath ≠ todoPath then
          .ok ((true, some newPath), renameOp st todoPath newPath)
        else .ok ((true, some newPath), st)
      else .ok ((true, none), st)

/-- One rendered Work Log entry for a pulled comment.  The `Nat`
abstraction of `createdAt` stands in for the `split("T")[0]` date part. -/
def commentBlock (c : LinearComment) : String :=
  let date := natToStr c.createdAt
  let author :=
    match c.user with
    | some u => u.displayName
    | none => "Linear User"
  "\n### " ++ date ++ " - Linear Comment\n\n" ++ "**By:** " ++ author ++
    "\n\n" ++ c.body ++ "\n\n---\n"

/-- The comments selected for appending: strictly newer than `since`
(the `new Date(c.createdAt) > sinceDate` filter). -/
def newCommentsOf (issue : LinearIssue) (since : Nat) : List LinearComment :=
  (issue.comments.getD []).filter (fun c => c.createdAt > since)

def pullCommentsFromIssue (env : Env) (issue : LinearIssue) (todoPath : TPath)
    (since : Nat) (st : SyncState) :
    Except (String × SyncState) (Nat × SyncState) :=
  let newComments := newCommentsOf issue since
  if newComments.length = 0 then .ok (0, st)
  else
    match readTextOp st todoPath with
    | .error e => .error e
    | .ok (node, st) =>
      let appendText := newComments.foldl (fun acc c => acc ++ commentBlock c) ""
      let updatedBody := jsTrimEnd node.body ++ "\n" ++ appendText
      let merged := { node.data with linear_synced_at := some env.now }
      .ok (newComments.length, writeTextOp env st todoPath merged updatedBody)

/-! ## New-issue import -/

def nextMaxId (todos : List TodoFile) (init : Nat) : Nat :=
  todos.foldl (fun m t =>
    match parseIntDigits t.frontmatter.issue_id with
    | some num => if num > m then num else m
    | none => m) init

def intToStr (i : Int) : String :=
  if i < 0 then "-" ++ natToStr i.natAbs else natToStr i.natAbs

/-- The seeded body of an imported todo file; `natToStr env.now` stands in
for the ISO date part of `new Date().toISOString()`. -/
def importedBody (env : Env) (issue : LinearIssue) : String :=
  "# " ++ issue.title ++ "\n\n## Problem Statement\n\n" ++
  issue.description.getD "Imported from Linear." ++
  "\n\n## Work Log\n\n### " ++ natToStr env.now ++
  " - Imported from Linear\n\n**By:** compound-plugin linear sync\n\n**Actions:**\n- Imported " ++
  issue.identifier ++ " from Linear\n- Original state: " ++ issue.state.name ++
  "\n- Original priority: " ++ intToStr issue.priority ++ "\n"

def fmToData (fm : TodoFrontmatter) : FmData :=
  { status := some fm.status, priority := some fm.priority,
    issue_id := some fm.issue_id, tags := fm.tags,
    dependencies := fm.dependencies, linear_id := fm.linear_id,
    linear_synced_at := fm.linear_synced_at }

def mkImportedTodo (env : Env) (config : LinearConfig) (todosDir : String)
    (issueId : String) (issue : LinearIssue) : TodoFile :=
  let status := (linearStateToFileStatus issue.state.name config).getD "pending"
  let priority := linearPriorityToFile issue.priority config
  let slug := slugify issue.title
  let filename := issueId ++ "-" ++ status ++ "-" ++ priority ++ "-" ++ slug ++ ".md"
  { path := ⟨todosDir, filename⟩,
    frontmatter :=
      { status := status, priority := priority, issue_id := issueId,
        tags := (issue.labels.map (fun ls => ls.map (fun l => jsToLower l.name))).getD [],
        dependencies := [],
        linear_id := some issue.identifier,
        linear_synced_at := some env.now },
    body := importedBody env issue }

/-- The body of the `for (const issue of newIssues)` loop in
`pullNewIssues`: bump the id counter, build the imported todo, write its
file. -/
def importStep (env : Env) (config : LinearConfig) (todosDir : String)
    (acc : Nat × List TodoFile × SyncState) (issue : LinearIssue) :
    Nat × List TodoFile × SyncState :=
  let newId := acc.1 + 1
  let issueId := padStart3 (natToStr newId)
  let todo := mkImportedTodo env config todosDir issueId issue
  let st := writeTextOp env acc.2.2 todo.path (fmToData todo.frontmatter) todo.body
  (newId, acc.2.1 ++ [todo], st)

def pullNewIssues (env : Env) (config : LinearConfig) (todosDir : String)
    (existingLinearIds : List String) (maxExistingId : Option Nat)
    (st : SyncState) :
    Except (String × SyncState) (List TodoFile × SyncState) :=
  match env.listIssues with
  | .error e => .error (e, st)
  | .ok issues =>
    let newIssues := issues.filter (fun i => ¬ existingLinearIds.contains i.identifier)
    if newIssues.isEmpty then .ok ([], st)
    else
      let maxId0 := maxExistingId.getD 0
      let maxId := if maxId0 = 0 then nextMaxId (loadTodoFiles st.fs) 0 else maxId0
      let r := newIssues.foldl (importStep env config todosDir) (maxId, [], st)
      .ok (r.2.1, r.2.2)

/-! ## The reconciliation pass (`syncAll`) -/

structure ConflictEntry where
  file : String
  linearId : String
  field : String
  fileValue : String
  linearValue : String
  winner : String
  reason : String
deriving DecidableEq, Repr

structure PushedCounts where
  created : Nat := 0
  updated : Nat := 0
deriving DecidableEq, Repr

structure PulledCounts where
  updated : Nat := 0
  comments : Nat := 0
  created : Nat := 0
deriving DecidableEq, Repr

structure SyncResult where
  pushed : PushedCounts := {}
  pulled : PulledCounts := {}
  conflicts : List ConflictEntry := []
  skipped : Nat := 0
  errors : List String := []
deriving DecidableEq, Repr

def mkConflictEntry (todo : TodoFile) (lid winner fileStatus linearStatus : String) :
    ConflictEntry :=
  { file := todo.path.file, linearId := lid, field := "status",
    fileValue := fileStatus, linearValue := linearStatus, winner := winner,
    reason := (if winner = "linear" then "Linear" else "File") ++
      " was modified more recently" }

def syncErrMsg (todo : TodoFile) (e : String) : String :=
  "Error syncing " ++ todo.path.file ++ ": " ++ e

def createErrMsg (todo : TodoFile) (e : String) : String :=
  "Error creating Linear issue for " ++ todo.path.file ++ ": " ++ e

/-- The body of the `try` block for one record that carries a `linear_id`,
with the surrounding `catch` folded in: a failure keeps every side effect
and counter mutation made before the throw and appends the error entry. -/
def processLinked (env : Env) (config : LinearConfig) (dryRun : Bool)
    (todo : TodoFile) (lid : String) (st : SyncState) (res : SyncResult) :
    SyncState × SyncResult :=
  match env.fetch lid with
  | .error e => (st, { res with errors := res.errors ++ [syncErrMsg todo e] })
  | .ok issue =>
    let syncedAt := todo.frontmatter.linear_synced_at.getD 0
    let linearUpdated := issue.updatedAt
    match readFile st.fs todo.path with
    | none =>
      (st, { res with errors := res.errors ++
        [syncErrMsg todo ("ENOENT: no such file " ++ todo.path.file)] })
    | some node =>
      let fileMtime := node.mtime
      let linearChanged : Bool := linearUpdated > syncedAt
      let fileChanged : Bool := fileMtime > syncedAt
      if linearChanged ∧ fileChanged then
        let winner := if linearUpdated > fileMtime then "linear" else "file"
        let fileStatus := todo.frontmatter.status
        let linearStatus :=
          (linearStateToFileStatus issue.state.name config).getD issue.state.name
        let res :=
          if fileStatus ≠ linearStatus then
            { res with conflicts := res.conflicts ++
              [mkConflictEntry todo lid winner fileStatus linearStatus] }
          else res
        if ¬ dryRun then
          if winner = "linear" then
            match pullStateFromIssue env config issue todo.path st with
            | .error (e, st) =>
              (st, { res with errors := res.errors ++ [syncErrMsg todo e] })
            | .ok (_, st) =>
              (st, { res with pulled := { res.pulled with updated := res.pulled.updated + 1 } })
          else
            match pushUpdate env config todo st with
            | .error (e, st) =>
              (st, { res with errors := res.errors ++ [syncErrMsg todo e] })
            | .ok st =>
              (st, { res with pushed := { res.pushed with updated := res.pushed.updated + 1 } })
        else (st, res)
      else if fileChanged ∧ ¬ linearChanged then
        if ¬ dryRun then
          match pushUpdate env config todo st with
          | .error (e, st) =>
            (st, { res with errors := res.errors ++ [syncErrMsg todo e] })
          | .ok st =>
            (st, { res with pushed := { res.pushed with updated := res.pushed.updated + 1 } })
        else
          (st, { res with pushed := { res.pushed with updated := res.pushed.updated + 1 } })
      else if linearChanged ∧ ¬ fileChanged then
        if ¬ dryRun then
          match pullStateFromIssue env config issue todo.path st with
          | .error (e, st) =>
            (st, { res with errors := res.errors ++ [syncErrMsg todo e] })
          | .ok (pullResult, st) =>
            let res :=
              if pullResult.1 then
                { res with pulled := { res.pulled with updated := res.pulled.updated + 1 } }
              else res
            match todo.frontmatter.linear_synced_at with
            | some since =>
              let commentPath := pullResult.2.getD todo.path
              match pullCommentsFromIssue env issue commentPath since st with
              | .error (e, st) =>
                (st, { res with errors := res.errors ++ [syncErrMsg todo e] })
              | .ok (commentCount, st) =>
                (st, { res with pulled :=
                  { res.pulled with comments := res.pulled.comments + commentCount } })
            | none => (st, res)
        else
          (st, { res with pulled := { res.pulled with updated := res.pulled.updated + 1 } })
      else (st, { res with skipped := res.skipped + 1 })

/-- One iteration of the `for (const todo of todos)` loop in `syncAll`. -/
def processTodo (env : Env) (config : LinearConfig) (dryRun : Bool)
    (acc : SyncState × SyncResult × List String) (todo : TodoFile) :
    SyncState × SyncResult × List String :=
  let (st, res, ids) := acc
  match truthyStr todo.frontmatter.linear_id with
  | some lid =>
    let ids := ids ++ [lid]
    let (st2, res2) := processLinked env config dryRun todo lid st res
    (st2, res2, ids)
  | none =>
    if ¬ dryRun then
      match pushCreate env config todo none false st with
      | .ok (_, st2) =>
        (st2, { res with pushed := { res.pushed with created := res.pushed.created + 1 } }, ids)
      | .error (e, st2) =>
        (st2, { res with errors := res.errors ++ [createErrMsg todo e] }, ids)
    else
      (st, { res with pushed := { res.pushed with created := res.pushed.created + 1 } }, ids)

def syncAll (env : Env) (config : LinearConfig) (todosDir : String)
    (fsInit : FS) (dryRun : Bool) : SyncState × SyncResult :=
  let st0 : SyncState := { fs := fsInit, events := [] }
  let todos := loadTodoFiles fsInit
  let maxIssueId := nextMaxId todos 0
  let r := todos.foldl (processTodo env config dryRun) (st0, {}, [])
  let st := r.1
  let res := r.2.1
  let ids := r.2.2
  if ¬ dryRun then
    match pullNewIssues env config todosDir ids (some maxIssueId) st with
    | .ok (newTodos, st2) =>
      (st2, { res with pulled := { res.pulled with created := newTodos.length } })
    | .error (e, st2) =>
      (st2, { res with errors := res.errors ++ ["Error pulling new issues: " ++ e] })
  else (st, res)

/-! ## Derived classification data -/

/-- The conflict entries one record's processing appends: nonempty exactly
when both sides changed and the status values differ.  Independent of dry
or live mode. -/
def conflictDelta (env : Env) (config : LinearConfig) (todo : TodoFile)
    (lid : String) (st : SyncState) : List ConflictEntry :=
  match env.fetch lid with
  | .error _ => []
  | .ok issue =>
    match readFile st.fs todo.path with
    | none => []
    | some node =>
      let syncedAt := todo.frontmatter.linear_synced_at.getD 0
      let linearStatus :=
        (linearStateToFileStatus issue.state.name config).getD issue.state.name
      if issue.updatedAt > syncedAt ∧ node.mtime > syncedAt then
        if todo.frontmatter.status ≠ linearStatus then
          [mkConflictEntry todo lid
            (if issue.updatedAt > node.mtime then "linear" else "file")
            todo.frontmatter.status linearStatus]
        else []
      else []

/-- A record is linked and unchanged on both sides relative to its last
sync timestamp. -/
def unchangedLinked (env : Env) (fs : FS) (t : TodoFile) : Prop :=
  ∃ lid, truthyStr t.frontmatter.linear_id = some lid ∧
    ∃ issue, env.fetch lid = .ok issue ∧
      issue.updatedAt ≤ t.frontmatter.linear_synced_at.getD 0 ∧
      ∃ node, readFile fs t.path = some node ∧
        node.mtime ≤ t.frontmatter.linear_synced_at.getD 0

def linkedIdOf (t : TodoFile) : Option String := truthyStr t.frontmatter.linear_id

def statusKeys : List String := ["pending", "ready", "in_progress", "complete", "cancelled"]

/-- A configuration whose maps are the ones `resolveConfig` installs. -/
def sampleConfig : LinearConfig :=
  { teamId := "team1", teamKey := "ENG",
    statusMap := some DEFAULT_STATUS_MAP, priorityMap := some DEFAULT_PRIORITY_MAP }

/-! ## Helper lemmas about the file store -/

theorem readFile_fsWrite (fs : FS) (p : TPath) (d : FmData) (b : String) (now : Nat) :
    readFile (fsWrite fs p d b now) p = some ⟨d, b, now⟩ := by
  rw [fsWrite]
  split
  · rename_i hany
    induction fs with
    | nil => simp at hany
    | cons e tl ih =>
      by_cases he : e.1 = p
      · simp [readFile, List.find?, he]
      · have htl : tl.any (fun e => e.1 = p) := by
          simp only [List.any_cons] at hany
          rcases Bool.or_eq_true_iff.mp hany with h1 | h2
          · exact absurd (by simpa using h1) he
          · exact h2
        simpa [readFile, List.find?, he] using ih htl
  · rename_i hany
    induction fs with
    | nil => simp [readFile, List.find?]
    | cons e tl ih =>
      have he : ¬ e.1 = p := fun h => hany (by simp [List.any_cons, h])
      have htl : ¬ tl.any (fun e => e.1 = p) = true :=
        fun h => hany (by simp [List.any_cons, h])
      simpa [readFile, List.find?, he] using ih htl

theorem importStep_fold_inv (env : Env) (config : LinearConfig) (todosDir : String)
    (P : TodoFile → Prop)
    (hP : ∀ issueId issue, P (mkImportedTodo env config todosDir issueId issue)) :
    ∀ (l : List LinearIssue) (acc : Nat × List TodoFile × SyncState),
      (∀ t ∈ acc.2.1, P t) →
      ∀ t ∈ (l.foldl (importStep env config todosDir) acc).2.1, P t := by
  intro l
  induction l with
  | nil => intro acc hacc t ht; exact hacc t ht
  | cons i tl ih =>
    intro acc hacc t ht
    refine ih _ ?_ t ht
    intro u hu
    simp only [importStep, List.mem_append, List.mem_singleton] at hu
    rcases hu with hu | rfl
    · exact hacc u hu
    · exact hP _ _

/-! ## Branch lemmas for one record's processing -/

theorem processLinked_fetch_error (env : Env) (config : LinearConfig) (dr : Bool)
    (todo : TodoFile) (lid : String) (st : SyncState) (res : SyncResult) (e : String)
    (hfetch : env.fetch lid = .error e) :
    processLinked env config dr todo lid st res =
      (st, { res with errors := res.errors ++ [syncErrMsg todo e] }) := by
  rw [processLinked, hfetch]

theorem processLinked_noFile (env : Env) (config : LinearConfig) (dr : Bool)
    (todo : TodoFile) (lid : String) (st : SyncState) (res : SyncResult)
    (issue : LinearIssue)
    (hfetch : env.fetch lid = .ok issue)
    (hnode : readFile st.fs todo.path = none) :
    processLinked env config dr todo lid st res =
      (st, { res with errors := res.errors ++
        [syncErrMsg todo ("ENOENT: no such file " ++ todo.path.file)] }) := by
  rw [processLinked, hfetch, hnode]

theorem processLinked_skip (env : Env) (config : LinearConfig) (dryRun : Bool)
    (todo : TodoFile) (lid : String) (st : SyncState) (res : SyncResult)
    (issue : LinearIssue) (node : FileNode)
    (hfetch : env.fetch lid = .ok issue)
    (hnode : readFile st.fs todo.path = some node)
    (hL : issue.updatedAt ≤ todo.frontmatter.linear_synced_at.getD 0)
    (hF : node.mtime ≤ todo.frontmatter.linear_synced_at.getD 0) :
    processLinked env config dryRun todo lid st res =
      (st, { res with skipped := res.skipped + 1 }) := by
  rw [processLinked, hfetch, hnode]
  have h1 : ¬ todo.frontmatter.linear_synced_at.getD 0 < issue.updatedAt := by omega
  have h2 : ¬ todo.frontmatter.linear_synced_at.getD 0 < node.mtime := by omega
  simp [h1, h2]

theorem processLinked_push_dry (env : Env) (config : LinearConfig)
    (todo : TodoFile) (lid : String) (st : SyncState) (res : SyncResult)
    (issue : LinearIssue) (node : FileNode)
    (hfetch : env.fetch lid = .ok issue)
    (hnode : readFile st.fs todo.path = some node)
    (hL : issue.updatedAt ≤ todo.frontmatter.linear_synced_at.getD 0)
    (hF : todo.frontmatter.linear_synced_at.getD 0 < node.mtime) :
    processLinked env config true todo lid st res =
      (st, { res with pushed := { res.pushed with updated := res.pushed.updated + 1 } }) := by
  rw [processLinked, hfetch, hnode]
  have h1 : ¬ todo.frontmatter.linear_synced_at.getD 0 < issue.updatedAt := by omega
  simp [h1, hF]

theorem processLinked_push_live (env : Env) (config : LinearConfig)
    (todo : TodoFile) (lid : String) (st : SyncState) (res : SyncResult)
    (issue : LinearIssue) (node : FileNode)
    (hfetch : env.fetch lid = .ok issue)
    (hnode : readFile st.fs todo.path = some node)
    (hL : issue.updatedAt ≤ todo.frontmatter.linear_synced_at.getD 0)
    (hF : todo.frontmatter.linear_synced_at.getD 0 < node.mtime) :
    processLinked env config false todo lid st res =
      (match pushUpdate env config todo st with
       | .error (e, st') => (st', { res with errors := res.errors ++ [syncErrMsg todo e] })
       | .ok st' =>
         (st', { res with pushed := { res.pushed with updated := res.pushed.updated + 1 } })) := by
  rw [processLinked, hfetch, hnode]
  have h1 : ¬ todo.frontmatter.linear_synced_at.getD 0 < issue.updatedAt := by omega
  simp only [h1, hF, decide_eq_true_eq, decide_eq_false_iff_not, not_false_iff,
    false_and, and_false, and_true, true_and, if_false, if_true, ite_false, ite_true,
    eq_self_iff_true, not_true, decide_False, decide_True, Bool.not_false, Bool.not_true,
    not_false_eq_true, Bool.false_eq_true]

theorem processLinked_pull_dry (env : Env) (config : LinearConfig)
    (todo : TodoFile) (lid : String) (st : SyncState) (res : SyncResult)
    (issue : LinearIssue) (node : FileNode)
    (hfetch : env.fetch lid = .ok issue)
    (hnode : readFile st.fs todo.path = some node)
    (hL : todo.frontmatter.linear_synced_at.getD 0 < issue.updatedAt)
    (hF : node.mtime ≤ todo.frontmatter.linear_synced_at.getD 0) :
    processLinked env config true todo lid st res =
      (st, { res with pulled := { res.pulled with updated := res.pulled.updated + 1 } }) := by
  rw [processLinked, hfetch, hnode]
  have h2 : ¬ todo.frontmatter.linear_synced_at.getD 0 < node.mtime := by omega
  simp [h2, hL]

theorem processLinked_pull_live (env : Env) (config : LinearConfig)
    (todo : TodoFile) (lid : String) (st : SyncState) (res : SyncResult)
    (issue : LinearIssue) (node : FileNode)
    (hfetch : env.fetch lid = .ok issue)
    (hnode : readFile st.fs todo.path = some node)
    (hL : todo.frontmatter.linear_synced_at.getD 0 < issue.updatedAt)
    (hF : node.mtime ≤ todo.frontmatter.linear_synced_at.getD 0) :
    processLinked env config false todo lid st res =
      (match pullStateFromIssue env config issue todo.path st with
       | .error (e, st') => (st', { res with errors := res.errors ++ [syncErrMsg todo e] })
       | .ok (pr, st') =>
         let res1 := if pr.1 then
             { res with pulled := { res.pulled with updated := res.pulled.updated + 1 } }
           else res
         match todo.frontmatter.linear_synced_at with
         | some since =>
           (match pullCommentsFromIssue env issue (pr.2.getD todo.path) since st' with
            | .error (e, st'') => (st'', { res1 with errors := res1.errors ++ [syncErrMsg todo e] })
            | .ok (cnt, st'') =>
              (st'', { res1 with pulled :=
                { res1.pulled with comments := res1.pulled.comments + cnt } }))
         | none => (st', res1)) := by
  rw [processLinked, hfetch, hnode]
  have h2 : ¬ todo.frontmatter.linear_synced_at.getD 0 < node.mtime := by omega
  simp [h2, hL]

theorem processLinked_conflict_dry (env : Env) (config : LinearConfig)
    (todo : TodoFile) (lid : String) (st : SyncState) (res : SyncResult)
    (issue : LinearIssue) (node : FileNode)
    (hfetch : env.fetch lid = .ok issue)
    (hnode : readFile st.fs todo.path = some node)
    (hL : todo.frontmatter.linear_synced_at.getD 0 < issue.updatedAt)
    (hF : todo.frontmatter.linear_synced_at.getD 0 < node.mtime) :
    processLinked env config true todo lid st res =
      (st,
        if todo.frontmatter.status ≠
            (linearStateToFileStatus issue.state.name config).getD issue.state.name then
          { res with conflicts := res.conflicts ++
            [mkConflictEntry todo lid
              (if issue.updatedAt > node.mtime then "linear" else "file")
              todo.frontmatter.status
              ((linearStateToFileStatus issue.state.name config).getD issue.state.name)] }
        else res) := by
  rw [processLinked, hfetch, hnode]
  simp only [hL, hF, decide_True, and_self, if_true, ite_true, eq_self_iff_true,
    not_true, if_false, Bool.not_true, Bool.false_eq_true, decide_eq_true_eq]

theorem processLinked_conflict_live_linear (env : Env) (config : LinearConfig)
    (todo : TodoFile) (lid : String) (st : SyncState) (res : SyncResult)
    (issue : LinearIssue) (node : FileNode)
    (hfetch : env.fetch lid = .ok issue)
    (hnode : readFile st.fs todo.path = some node)
    (hL : todo.frontmatter.linear_synced_at.getD 0 < issue.updatedAt)
    (hF : todo.frontmatter.linear_synced_at.getD 0 < node.mtime)
    (hW : node.mtime < issue.updatedAt) :
    processLinked env config false todo lid st res =
      (let resC := if todo.frontmatter.status ≠
            (linearStateToFileStatus issue.state.name config).getD issue.state.name then
          { res with conflicts := res.conflicts ++
            [mkConflictEntry todo lid "linear" todo.frontmatter.status
              ((linearStateToFileStatus issue.state.name config).getD issue.state.name)] }
        else res
       match pullStateFromIssue env config issue todo.path st with
       | .error (e, st') => (st', { resC with errors := resC.errors ++ [syncErrMsg todo e] })
       | .ok (_, st') =>
         (st', { resC with pulled := { resC.pulled with updated := resC.pulled.updated + 1 } })) := by
  rw [processLinked, hfetch, hnode]
  simp only [hL, hF, hW, decide_True, and_self, if_true, ite_true, eq_self_iff_true,
    not_true, if_false, Bool.not_true, Bool.false_eq_true, decide_eq_true_eq,
    not_false_eq_true, Bool.not_false]

theorem processLinked_conflict_live_file (env : Env) (config : LinearConfig)
    (todo : TodoFile) (lid : String) (st : SyncState) (res : SyncResult)
    (issue : LinearIssue) (node : FileNode)
    (hfetch : env.fetch lid = .ok issue)
    (hnode : readFile st.fs todo.path = some node)
    (hL : todo.frontmatter.linear_synced_at.getD 0 < issue.updatedAt)
    (hF : todo.frontmatter.linear_synced_at.getD 0 < node.mtime)
    (hW : ¬ node.mtime < issue.updatedAt) :
    processLinked env config false todo lid st res =
      (let resC := if todo.frontmatter.status ≠
            (linearStateToFileStatus issue.state.name config).getD issue.state.name then
          { res with conflicts := res.conflicts ++
            [mkConflictEntry todo lid "file" todo.frontmatter.status
              ((linearStateToFileStatus issue.state.name config).getD issue.state.name)] }
        else res
       match pushUpdate env config todo st with
       | .error (e, st') => (st', { resC with errors := resC.errors ++ [syncErrMsg todo e] })
       | .ok st' =>
         (st', { resC with pushed := { resC.pushed with updated := resC.pushed.updated + 1 } })) := by
  rw [processLinked, hfetch, hnode]
  simp only [hL, hF, hW, decide_True, and_self, if_true, ite_true, eq_self_iff_true,
    not_true, if_false, Bool.not_true, Bool.false_eq_true, decide_eq_true_eq,
    not_false_eq_true, Bool.not_false, decide_False, ite_false]
  rw [if_neg (by decide : ¬ ("file" : String) = "linear")]

theorem processLinked_mode_parity (env : Env) (config : LinearConfig)
    (todo : TodoFile) (lid : String) (st : SyncState) (res : SyncResult) :
    ((processLinked env config true todo lid st res).2.conflicts =
     (processLinked env config false todo lid st res).2.conflicts) ∧
    ((processLinked env config true todo lid st res).2.skipped =
     (processLinked env config false todo lid st res).2.skipped) := by
  cases hf : env.fetch lid with
  | error e =>
    rw [processLinked_fetch_error env config true todo lid st res e hf,
        processLinked_fetch_error env config false todo lid st res e hf]
    exact ⟨rfl, rfl⟩
  | ok issue =>
    cases hn : readFile st.fs todo.path with
    | none =>
      rw [processLinked_noFile env config true todo lid st res issue hf hn,
          processLinked_noFile env config false todo lid st res issue hf hn]
      exact ⟨rfl, rfl⟩
    | some node =>
      rcases Nat.lt_or_ge (todo.frontmatter.linear_synced_at.getD 0) issue.updatedAt with hL | hL
      · rcases Nat.lt_or_ge (todo.frontmatter.linear_synced_at.getD 0) node.mtime with hF | hF
        · rw [processLinked_conflict_dry env config todo lid st res issue node hf hn hL hF]
          rcases Nat.lt_or_ge node.mtime issue.updatedAt with hW | hW
          · rw [processLinked_conflict_live_linear env config todo lid st res issue node hf hn hL hF hW]
            cases hps : pullStateFromIssue env config issue todo.path st with
            | error pe =>
              rcases pe with ⟨e, st'⟩
              constructor <;> simp [hW]
            | ok pv =>
              rcases pv with ⟨pr, st'⟩
              constructor <;> simp [hW]
          · rw [processLinked_conflict_live_file env config todo lid st res issue node hf hn hL hF (by omega)]
            have hW2 : ¬ issue.updatedAt > node.mtime := by omega
            cases hpu : pushUpdate env config todo st with
            | error pe =>
              rcases pe with ⟨e, st'⟩
              constructor <;> simp [hW2]
            | ok st' =>
              constructor <;> simp [hW2]
        · rw [processLinked_pull_dry env config todo lid st res issue node hf hn hL (by omega),
              processLinked_pull_live env config todo lid st res issue node hf hn hL (by omega)]
          cases hps : pullStateFromIssue env config issue todo.path st with
          | error pe =>
            rcases pe with ⟨e, st'⟩
            exact ⟨by simp, by simp⟩
          | ok pv =>
            rcases pv with ⟨pr, st'⟩
            cases hsy : todo.frontmatter.linear_synced_at with
            | none => constructor <;> simp <;> split <;> simp
            | some since =>
              cases hpc : pullCommentsFromIssue env issue (pr.2.getD todo.path) since st' with
              | error pe2 =>
                rcases pe2 with ⟨e2, st''⟩
                constructor <;> simp [hpc] <;> split <;> simp
              | ok cv =>
                rcases cv with ⟨cnt, st''⟩
                constructor <;> simp [hpc] <;> split <;> simp
      · rcases Nat.lt_or_ge (todo.frontmatter.linear_synced_at.getD 0) node.mtime with hF | hF
        · rw [processLinked_push_dry env config todo lid st res issue node hf hn (by omega) hF,
              processLinked_push_live env config todo lid st res issue node hf hn (by omega) hF]
          cases hpu : pushUpdate env config todo st with
          | error pe =>
            rcases pe with ⟨e, st'⟩
            exact ⟨by simp, by simp⟩
          | ok st' => exact ⟨by simp, by simp⟩
        · rw [processLinked_skip env config true todo lid st res issue node hf hn (by omega) (by omega),
              processLinked_skip env config false todo lid st res issue node hf hn (by omega) (by omega)]
          exact ⟨rfl, rfl⟩
theorem processLinked_dry_frame (env : Env) (config : LinearConfig)
    (todo : TodoFile) (lid : String) (st : SyncState) (res : SyncResult) :
    (processLinked env config true todo lid st res).1 = st ∧
    (processLinked env config true todo lid st res).2.pulled.comments =
      res.pulled.comments ∧
    (processLinked env config true todo lid st res).2.pulled.created =
      res.pulled.created := by
  rw [processLinked]
  cases hf : env.fetch lid with
  | error e => exact ⟨rfl, rfl, rfl⟩
  | ok issue =>
    cases hn : readFile st.fs todo.path with
    | none => exact ⟨rfl, rfl, rfl⟩
    | some node =>
      simp only [eq_self_iff_true, not_true, if_false]
      split
      · split <;> exact ⟨rfl, rfl, rfl⟩
      · split
        · exact ⟨rfl, rfl, rfl⟩
        · split
          · exact ⟨rfl, rfl, rfl⟩
          · exact ⟨rfl, rfl, rfl⟩

theorem processTodo_dry_frame (env : Env) (config : LinearConfig)
    (acc : SyncState × SyncResult × List String) (todo : TodoFile) :
    (processTodo env config true acc todo).1 = acc.1 ∧
    (processTodo env config true acc todo).2.1.pulled.comments =
      acc.2.1.pulled.comments ∧
    (processTodo env config true acc todo).2.1.pulled.created =
      acc.2.1.pulled.created := by
  obtain ⟨st, res, ids⟩ := acc
  rw [processTodo]
  cases hlid : truthyStr todo.frontmatter.linear_id with
  | some lid =>
    simp only []
    have h := processLinked_dry_frame env config todo lid st res
    exact ⟨h.1, h.2.1, h.2.2⟩
  | none => exact ⟨rfl, rfl, rfl⟩

theorem syncAll_dry_fold (env : Env) (config : LinearConfig) :
    ∀ (ts : List TodoFile) (acc : SyncState × SyncResult × List String),
      (ts.foldl (processTodo env config true) acc).1 = acc.1 ∧
      (ts.foldl (processTodo env config true) acc).2.1.pulled.comments =
        acc.2.1.pulled.comments ∧
      (ts.foldl (processTodo env config true) acc).2.1.pulled.created =
        acc.2.1.pulled.created := by
  intro ts
  induction ts with
  | nil => intro acc; exact ⟨rfl, rfl, rfl⟩
  | cons t tl ih =>
    intro acc
    rw [List.foldl_cons]
    have h1 := processTodo_dry_frame env config acc t
    have h2 := ih (processTodo env config true acc t)
    exact ⟨h2.1.trans h1.1, h2.2.1.trans h1.2.1, h2.2.2.trans h1.2.2⟩

theorem syncAll_dry_frame (env : Env) (config : LinearConfig) (todosDir : String)
    (fsInit : FS) :
    (syncAll env config todosDir fsInit true).1 = { fs := fsInit, events := [] } ∧
    (syncAll env config todosDir fsInit true).2.pulled.comments = 0 ∧
    (syncAll env config todosDir fsInit true).2.pulled.created = 0 := by
  simp only [syncAll, eq_self_iff_true, not_true, if_false, Bool.not_true,
    Bool.false_eq_true, ite_false]
  have h := syncAll_dry_fold env config (loadTodoFiles fsInit)
    ({ fs := fsInit, events := [] }, {}, [])
  exact ⟨h.1, h.2.1, h.2.2⟩
theorem fsWrite_paths_of_present (fs : FS) (p : TPath) (d : FmData) (b : String)
    (now : Nat) (hp : fs.any (fun e => e.1 = p)) :
    (fsWrite fs p d b now).map Prod.fst = fs.map Prod.fst := by
  rw [fsWrite, if_pos hp]
  clear hp
  induction fs with
  | nil => rfl
  | cons e tl ih =>
    simp only [List.map_cons]
    by_cases he : e.1 = p
    · rw [if_pos he, ih, he]
    · rw [if_neg he, ih]

theorem readFile_present (fs : FS) (p : TPath) (node : FileNode)
    (h : readFile fs p = some node) : fs.any (fun e => e.1 = p) := by
  rw [readFile] at h
  cases hf : fs.find? (fun e => e.1 = p) with
  | none => rw [hf] at h; simp at h
  | some e =>
    have hm := List.mem_of_find?_eq_some hf
    have hp := List.find?_some hf
    simp only [decide_eq_true_eq] at hp
    rw [List.any_eq_true]
    exact ⟨e, hm, by simpa using hp⟩

theorem readFile_fsRename_fresh (fs : FS) (oldP newP : TPath)
    (hfree : ∀ e ∈ fs, e.1 ≠ newP) :
    readFile (fsRename fs oldP newP) newP = readFile fs oldP := by
  rw [fsRename]
  induction fs with
  | nil => simp [readFile, List.find?]
  | cons e tl ih =>
    by_cases he : e.1 = oldP
    · rw [List.map_cons, if_pos he]
      simp [readFile, List.find?, he]
    · have hen : ¬ e.1 = newP := hfree e (by simp)
      have := ih (fun u hu => hfree u (by simp [hu]))
      simpa [readFile, List.find?, he, hen] using this

theorem pullState_value_applied (env : Env) (config : LinearConfig)
    (issue : LinearIssue) (todoPath : TPath) (st : SyncState)
    (node : FileNode) (ns : String)
    (hn : readFile st.fs todoPath = some node)
    (hcs : node.data.status.isSome)
    (hcp : node.data.priority.isSome)
    (ht : linearStateToFileStatus issue.state.name config = some ns)
    (hne : ns ≠ "") :
    ∃ pr st', pullStateFromIssue env config issue todoPath st = .ok (pr, st') ∧
      ((∀ q ∈ st.fs.map Prod.fst, q = todoPath ∨ q ≠ pr.2.getD todoPath) →
        ∃ n', readFile st'.fs (pr.2.getD todoPath) = some n' ∧
          n'.data.status = some ns ∧
          n'.data.priority = some (linearPriorityToFile issue.priority config) ∧
          n'.data.linear_synced_at = some env.now) := by
  obtain ⟨cs, hcseq⟩ := Option.isSome_iff_exists.mp hcs
  obtain ⟨cp, hcpeq⟩ := Option.isSome_iff_exists.mp hcp
  have hfss : fmStatusString node.data = cs := by simp [fmStatusString, hcseq]
  have hfps : fmPriorityString node.data = cp := by simp [fmPriorityString, hcpeq]
  rw [pullStateFromIssue, readTextOp, hn]
  simp only [ht, hfss, hfps]
  by_cases heq : ns = cs ∧ linearPriorityToFile issue.priority config = cp
  · rw [if_pos (by simp [heq.1, heq.2])]
    refine ⟨(false, none), _, rfl, fun _ => ?_⟩
    refine ⟨_, readFile_fsWrite _ _ _ _ _, ?_, ?_, ?_⟩
    · simpa [hcseq] using heq.1.symm
    · simpa [hcpeq] using heq.2.symm
    · rfl
  · rw [if_neg (by simpa using fun h1 h2 => heq ⟨Option.some_injective _ h1, h2⟩)]
    have htr : truthyStr (some ns) = some ns := by simp [truthyStr, hne]
    simp only [htr]
    set statusUpd : Option String := if ns ≠ cs then some ns else none with hsu
    set prioUpd : Option String :=
      if linearPriorityToFile issue.priority config ≠ cp
      then some (linearPriorityToFile issue.priority config) else none with hpu
    set updFm : FmUpdates :=
      { status := statusUpd, priority := prioUpd, linear_id := none, linear_synced_at := some env.now }
      with hupdf
    have hrename : (statusUpd.isSome ∨ prioUpd.isSome : Bool) = true := by
      rcases not_and_or.mp heq with h | h
      · simp [hsu, h]
      · simp [hpu, h]
    have hmerged : mergeFm node.data updFm =
        { status := some ns,
          priority := some (linearPriorityToFile issue.priority config),
          issue_id := node.data.issue_id, tags := node.data.tags,
          dependencies := node.data.dependencies,
          linear_id := node.data.linear_id,
          linear_synced_at := some env.now } := by
      by_cases h1 : ns = cs <;> by_cases h2 : linearPriorityToFile issue.priority config = cp <;>
        simp [hupdf, mergeFm, hsu, hpu, h1, h2, hcseq, hcpeq, Option.orElse]
    have hfin1 : statusUpd.getD cs = ns := by
      by_cases h1 : ns = cs <;> simp [hsu, h1]
    have hfin2 : prioUpd.getD cp = linearPriorityToFile issue.priority config := by
      by_cases h2 : linearPriorityToFile issue.priority config = cp <;> simp [hpu, h2]
    rw [if_pos (by exact hrename)]
    rw [hfin1, hfin2]
    by_cases hnp : renameTodoFile todoPath ns (linearPriorityToFile issue.priority config) = todoPath
    · rw [if_neg (by simpa using hnp)]
      refine ⟨(true, some (renameTodoFile todoPath ns
          (linearPriorityToFile issue.priority config))), _, rfl, fun _ => ?_⟩
      rw [Option.getD_some, hnp]
      refine ⟨_, readFile_fsWrite _ _ _ _ _, ?_, ?_, ?_⟩
      · rw [hmerged]
      · rw [hmerged]
      · rw [hmerged]
    · rw [if_pos (by simpa using hnp)]
      refine ⟨(true, some (renameTodoFile todoPath ns
          (linearPriorityToFile issue.priority config))), _, rfl, fun hq => ?_⟩
      rw [Option.getD_some]
      have hpres := readFile_present st.fs todoPath node hn
      have hfree : ∀ e ∈ (writeTextOp env st todoPath (mergeFm node.data updFm) node.body).fs,
          e.1 ≠ renameTodoFile todoPath ns (linearPriorityToFile issue.priority config) := by
        intro e he
        have hmem : e.1 ∈ st.fs.map Prod.fst := by
          rw [← fsWrite_paths_of_present st.fs todoPath (mergeFm node.data updFm)
            node.body env.now hpres]
          exact List.mem_map_of_mem Prod.fst he
        rcases hq e.1 hmem with h | h
        · rw [h]
          exact fun hcon => hnp hcon.symm
        · exact h
      rw [renameOp]
      simp only []
      rw [readFile_fsRename_fresh _ _ _ hfree]
      rw [writeTextOp]
      simp only []
      refine ⟨_, readFile_fsWrite _ _ _ _ _, ?_, ?_, ?_⟩
      · rw [hmerged]
      · rw [hmerged]
      · rw [hmerged]

theorem processTodo_linked (env : Env) (config : LinearConfig) (dr : Bool)
    (st : SyncState) (res : SyncResult) (ids : List String) (todo : TodoFile)
    (lid : String)
    (hlid : truthyStr todo.frontmatter.linear_id = some lid) :
    processTodo env config dr (st, res, ids) todo =
      ((processLinked env config dr todo lid st res).1,
       (processLinked env config dr todo lid st res).2, ids ++ [lid]) := by
  rw [processTodo]
  simp only [hlid]

theorem processTodo_skip (env : Env) (config : LinearConfig) (dryRun : Bool)
    (st : SyncState) (res : SyncResult) (ids : List String) (todo : TodoFile)
    (h : unchangedLinked env st.fs todo) :
    ∃ lid, linkedIdOf todo = some lid ∧
      processTodo env config dryRun (st, res, ids) todo =
        (st, { res with skipped := res.skipped + 1 }, ids ++ [lid]) := by
  obtain ⟨lid, hlid, issue, hfetch, hL, node, hnode, hF⟩ := h
  refine ⟨lid, hlid, ?_⟩
  rw [processTodo]
  simp only [hlid]
  rw [processLinked_skip env config dryRun todo lid st res issue node hfetch hnode hL hF]

theorem processTodo_create_dry (env : Env) (config : LinearConfig)
    (st : SyncState) (res : SyncResult) (ids : List String) (todo : TodoFile)
    (hlid : truthyStr todo.frontmatter.linear_id = none) :
    processTodo env config true (st, res, ids) todo =
      (st, { res with pushed := { res.pushed with created := res.pushed.created + 1 } }, ids) := by
  rw [processTodo]
  simp [hlid]

theorem processTodo_create_live (env : Env) (config : LinearConfig)
    (st : SyncState) (res : SyncResult) (ids : List String) (todo : TodoFile)
    (r : String) (st' : SyncState)
    (hlid : truthyStr todo.frontmatter.linear_id = none)
    (hok : pushCreate env config todo none false st = .ok (r, st')) :
    processTodo env config false (st, res, ids) todo =
      (st', { res with pushed := { res.pushed with created := res.pushed.created + 1 } }, ids) := by
  rw [processTodo]
  simp [hlid, hok]

theorem c2_fold (env : Env) (config : LinearConfig) (dryRun : Bool) (fs0 : FS) :
    ∀ (ts : List TodoFile), (∀ t ∈ ts, unchangedLinked env fs0 t) →
    ∀ (ev : List SyncEvent) (res : SyncResult) (ids : List String),
      ts.foldl (processTodo env config dryRun) (⟨fs0, ev⟩, res, ids) =
        (⟨fs0, ev⟩, { res with skipped := res.skipped + ts.length },
          ids ++ ts.filterMap linkedIdOf) := by
  intro ts
  induction ts with
  | nil => intro _ ev res ids; simp
  | cons t tl ih =>
    intro hall ev res ids
    obtain ⟨lid, hlid, hstep⟩ :=
      processTodo_skip env config dryRun ⟨fs0, ev⟩ res ids t (hall t (by simp))
    rw [List.foldl_cons, hstep]
    rw [ih (fun u hu => hall u (by simp [hu])) ev _ _]
    simp [List.filterMap_cons, hlid, List.length_cons]
    omega

/-! ## Decidable equality for remote-call results -/

instance {ε α : Type} [DecidableEq ε] [DecidableEq α] : DecidableEq (Except ε α) := fun x y => by
  cases x with
  | error a =>
    cases y with
    | error b => exact decidable_of_iff (a = b) ⟨congrArg _, fun h => by injection h⟩
    | ok b => exact isFalse (fun h => by injection h)
  | ok a =>
    cases y with
    | error b => exact isFalse (fun h => by injection h)
    | ok b => exact decidable_of_iff (a = b) ⟨congrArg _, fun h => by injection h⟩

/-! ## Concrete scenario worlds used by counterexamples and witnesses -/

def cStatesList : List LinearState :=
  [⟨"s1", "Triage", "triage"⟩, ⟨"s2", "Done", "completed"⟩]

def cIssueSkip : LinearIssue :=
  { id := "uuid1", identifier := "ENG-1", title := "Fix bug",
    state := { id := "s1", name := "Triage" }, priority := 2, updatedAt := 4 }

def cPathSkip : TPath := ⟨"todos", "001-pending-p2-fix-bug.md"⟩

def cDataSkip : FmData :=
  { status := some "pending", priority := some "p2", issue_id := some "001",
    linear_id := some "ENG-1", linear_synced_at := some 5 }

def cNodeSkip : FileNode := { data := cDataSkip, body := "# Fix bug\n", mtime := 3 }

def cFmSkip : TodoFrontmatter :=
  { status := "pending", priority := "p2", issue_id := "001",
    linear_id := some "ENG-1", linear_synced_at := some 5 }

def cTodoSkip : TodoFile :=
  { path := cPathSkip, frontmatter := cFmSkip, body := "# Fix bug\n" }

def cFsSkip : FS := [(cPathSkip, cNodeSkip)]

def cEnvSkip : Env :=
  { states := cStatesList,
    fetch := fun s => if s = "ENG-1" then .ok cIssueSkip else .error "not found",
    createIssue := fun _ => .error "no network",
    updateIssue := fun _ _ => .error "no network",
    listIssues := .ok [cIssueSkip],
    now := 10 }

def cIssueConflict : LinearIssue :=
  { id := "uuid2", identifier := "ENG-2", title := "T2",
    state := { id := "s2", name := "Done" }, priority := 2, updatedAt := 9 }

def cPathConflict : TPath := ⟨"todos", "002-pending-p2-t2.md"⟩

def cDataConflict : FmData :=
  { status := some "pending", priority := some "p2", issue_id := some "002",
    linear_id := some "ENG-2", linear_synced_at := some 5 }

def cNodeConflict : FileNode := { data := cDataConflict, body := "# T2\n", mtime := 7 }

def cFmConflict : TodoFrontmatter :=
  { status := "pending", priority := "p2", issue_id := "002",
    linear_id := some "ENG-2", linear_synced_at := some 5 }

def cTodoConflict : TodoFile :=
  { path := cPathConflict, frontmatter := cFmConflict, body := "# T2\n" }

def cFsConflict : FS := [(cPathConflict, cNodeConflict)]

def cEnvConflict : Env :=
  { states := cStatesList,
    fetch := fun s => if s = "ENG-2" then .ok cIssueConflict else .error "not found",
    createIssue := fun _ => .error "no network",
    updateIssue := fun _ _ => .ok cIssueConflict,
    listIssues := .ok [],
    now := 10 }

def c5Issue (n : Nat) : LinearIssue :=
  { id := "uuid" ++ natToStr n, identifier := "ENG-" ++ natToStr n,
    title := "T" ++ natToStr n,
    state := { id := "s2", name := "Done" }, priority := 2, updatedAt := 9 }

def c5Path (n : Nat) (status : String) : TPath :=
  ⟨"todos", padStart3 (natToStr n) ++ "-" ++ status ++ "-p2-t" ++ natToStr n ++ ".md"⟩

def c5Data (n : Nat) : FmData :=
  { status := some "pending", priority := some "p2",
    issue_id := some (padStart3 (natToStr n)),
    linear_id := some ("ENG-" ++ natToStr n), linear_synced_at := some 5 }

def c5Node (n : Nat) : FileNode :=
  { data := c5Data n, body := "# T" ++ natToStr n ++ "\n", mtime := 3 }

def c5Fm (n : Nat) : TodoFrontmatter :=
  { status := "pending", priority := "p2", issue_id := padStart3 (natToStr n),
    linear_id := some ("ENG-" ++ natToStr n), linear_synced_at := some 5 }

def c5Todo (n : Nat) : TodoFile :=
  { path := c5Path n "pending", frontmatter := c5Fm n,
    body := "# T" ++ natToStr n ++ "\n" }

def c5Fs : FS :=
  [(c5Path 1 "pending", c5Node 1), (c5Path 2 "pending", c5Node 2),
   (c5Path 3 "pending", c5Node 3), (c5Path 4 "pending", c5Node 4),
   (c5Path 5 "pending", c5Node 5)]

def c5Env : Env :=
  { states := cStatesList,
    fetch := fun s =>
      if s = "ENG-2" then .error "network down"
      else if s = "ENG-1" then .ok (c5Issue 1)
      else if s = "ENG-3" then .ok (c5Issue 3)
      else if s = "ENG-4" then .ok (c5Issue 4)
      else if s = "ENG-5" then .ok (c5Issue 5)
      else .error "not found",
    createIssue := fun _ => .error "no network",
    updateIssue := fun _ _ => .error "no network",
    listIssues := .ok [],
    now := 10 }

def c4CommentA : LinearComment :=
  { id := "cA", body := "first note", createdAt := 6, updatedAt := 6,
    user := some { name := "Ann", displayName := "Ann B" } }

def c4CommentB : LinearComment :=
  { id := "cB", body := "second note", createdAt := 7, updatedAt := 7 }

def c4CommentOld : LinearComment :=
  { id := "cO", body := "old note", createdAt := 4, updatedAt := 4 }

def c4Issue : LinearIssue :=
  { id := "uuid4", identifier := "ENG-4", title := "T4",
    state := { id := "s1", name := "Triage" }, priority := 2,
    comments := some [c4CommentOld, c4CommentA, c4CommentB], updatedAt := 9 }

def c4Path : TPath := ⟨"todos", "004-pending-p2-t4.md"⟩

def c4Node : FileNode := ⟨{ status := some "pending" }, "# T4\n", 3⟩

def c4St : SyncState := { fs := [(c4Path, c4Node)], events := [] }

def c10Issue : LinearIssue :=
  { id := "uuid10", identifier := "ENG-10", title := "T10",
    state := { id := "s1", name := "Triage" }, priority := 2,
    comments := some [c4CommentOld], updatedAt := 9 }

def c9Path : TPath := ⟨"todos", "009-pending-p2-t9.md"⟩

def c9Data : FmData :=
  { status := some "pending", priority := some "p2", issue_id := some "009" }

def c9St : SyncState := { fs := [(c9Path, ⟨c9Data, "# T9\n", 3⟩)], events := [] }

def c9Upd : FmUpdates := { linear_id := some "ENG-9" }

def c9Env : Env :=
  { states := [], fetch := fun _ => .error "not found",
    createIssue := fun _ => .error "no network",
    updateIssue := fun _ _ => .error "no network",
    listIssues := .ok [], now := 10 }

def c9After : SyncState :=
  match updateTodoFrontmatterOp c9Env c9Path c9Upd c9St with
  | .ok st' => st'
  | .error _ => { fs := [], events := [] }

/-- Helper for the status round trip: with the default map, a candidate
state whose lowered name equals the lowered target round-trips back to the
original status key. -/
theorem roundtrip_helper (config : LinearConfig)
    (hsm : config.statusMap.getD DEFAULT_STATUS_MAP = DEFAULT_STATUS_MAP)
    (status target : String)
    (hget : statusMapGet DEFAULT_STATUS_MAP status = some target)
    (hne : target ≠ "")
    (hback : ∀ nm : String, jsToLower nm = jsToLower target →
       linearStateToFileStatus nm config = some status)
    (states : List LinearState) (s : LinearState) (hs : s ∈ states)
    (heq : jsToLower s.name = jsToLower target) :
    ∃ st, fileStatusToLinearState status states config = some st ∧
      linearStateToFileStatus st.name config = some status := by
  cases hfe : states.find? (fun t => jsToLower t.name = jsToLower target) with
  | none => exact absurd heq (by simpa using List.find?_eq_none.mp hfe s hs)
  | some stt =>
    refine ⟨stt, ?_, ?_⟩
    · simp only [fileStatusToLinearState, hsm, hget, truthyStr]
      simp only [hne, reduceIte, if_neg]
      exact hfe
    · exact hback stt.name (by simpa using List.find?_some hfe)

/-! ## Claims -/

/-- C6: for every status in the closed enumeration, translating it to a
remote workflow state and back returns the original status, provided the
candidate state list contains a state whose name case-insensitively equals
the configured (default) mapping's name for that status; symmetrically,
every local priority round-trips through the remote integer. -/
theorem c6_roundtrip
    (config : LinearConfig)
    (hsm : config.statusMap.getD DEFAULT_STATUS_MAP = DEFAULT_STATUS_MAP)
    (hpm : config.priorityMap.getD DEFAULT_PRIORITY_MAP = DEFAULT_PRIORITY_MAP)
    (status : String) (hst : status ∈ statusKeys)
    (states : List LinearState)
    (hcand : ∃ s ∈ states,
      jsToLower s.name = jsToLower ((statusMapGet DEFAULT_STATUS_MAP status).getD "")) :
    (∃ st, fileStatusToLinearState status states config = some st ∧
      linearStateToFileStatus st.name config = some status) ∧
    (∀ p ∈ (["p1", "p2", "p3"] : List String),
      linearPriorityToFile (filePriorityToLinear p config) config = p) := by
  constructor
  · obtain ⟨s, hs, heq⟩ := hcand
    simp only [statusKeys, List.mem_cons, List.not_mem_nil, or_false] at hst
    rcases hst with rfl | rfl | rfl | rfl | rfl
    · exact roundtrip_helper config hsm "pending" "Triage" (by decide) (by decide)
        (fun nm h => by simp only [linearStateToFileStatus, hsm, h]; decide)
        states s hs (by simpa [statusMapGet, DEFAULT_STATUS_MAP] using heq)
    · exact roundtrip_helper config hsm "ready" "Todo" (by decide) (by decide)
        (fun nm h => by simp only [linearStateToFileStatus, hsm, h]; decide)
        states s hs (by simpa [statusMapGet, DEFAULT_STATUS_MAP] using heq)
    · exact roundtrip_helper config hsm "in_progress" "In Progress" (by decide) (by decide)
        (fun nm h => by simp only [linearStateToFileStatus, hsm, h]; decide)
        states s hs (by simpa [statusMapGet, DEFAULT_STATUS_MAP] using heq)
    · exact roundtrip_helper config hsm "complete" "Done" (by decide) (by decide)
        (fun nm h => by simp only [linearStateToFileStatus, hsm, h]; decide)
        states s hs (by simpa [statusMapGet, DEFAULT_STATUS_MAP] using heq)
    · exact roundtrip_helper config hsm "cancelled" "Cancelled" (by decide) (by decide)
        (fun nm h => by simp only [linearStateToFileStatus, hsm, h]; decide)
        states s hs (by simpa [statusMapGet, DEFAULT_STATUS_MAP] using heq)
  · intro p hp
    have h1 : filePriorityToLinear p config =
        (priorityMapGet DEFAULT_PRIORITY_MAP p).getD 3 := by
      simp only [filePriorityToLinear, hpm]
    fin_cases hp <;> simp [h1, priorityMapGet, DEFAULT_PRIORITY_MAP, linearPriorityToFile]

/-- Witness for C6 at status `pending` with a two-state candidate list. -/
theorem c6_roundtrip_witness :
    (∃ st, fileStatusToLinearState "pending" cStatesList sampleConfig = some st ∧
      linearStateToFileStatus st.name sampleConfig = some "pending") ∧
    (∀ p ∈ (["p1", "p2", "p3"] : List String),
      linearPriorityToFile (filePriorityToLinear p sampleConfig) sampleConfig = p) :=
  c6_roundtrip sampleConfig (by decide) (by decide) "pending" (by decide) cStatesList
    ⟨⟨"s1", "Triage", "triage"⟩, by decide, by decide⟩

/-- C7 counterexample: an unset remote priority (0) translates to `p1`,
not to the mapping's normal tier `p3` as the claim states. -/
theorem c7_priority_counterexample :
    linearPriorityToFile 0 sampleConfig = "p1" ∧
    linearPriorityToFile 0 sampleConfig ≠ "p3" := by decide

/-- C7 (amended): both priority translations are total, but a remote
priority that is unset (0) or at most 1 maps to `p1` (most urgent), 2
maps to `p2`, everything greater maps to `p3`; a local priority absent
from the configured mapping maps to the literal 3. -/
theorem c7_priority_amended (config : LinearConfig) (p : Int) (s : String)
    (hs : priorityMapGet (config.priorityMap.getD DEFAULT_PRIORITY_MAP) s = none) :
    linearPriorityToFile p config ∈ (["p1", "p2", "p3"] : List String) ∧
    (p ≤ 1 → linearPriorityToFile p config = "p1") ∧
    (p = 2 → linearPriorityToFile p config = "p2") ∧
    (2 < p → linearPriorityToFile p config = "p3") ∧
    filePriorityToLinear s config = 3 := by
  refine ⟨?_, ?_, ?_, ?_, ?_⟩
  · simp only [linearPriorityToFile]
    split
    · simp
    · split <;> simp
  · intro h; simp [linearPriorityToFile, h]
  · intro h; simp [linearPriorityToFile, h]
  · intro h
    have h1 : ¬ p ≤ 1 := by omega
    have h2 : ¬ p = 2 := by omega
    simp [linearPriorityToFile, h1, h2]
  · simp [filePriorityToLinear, hs]

/-- Witness for C7 (amended) at remote priority 0 and the unknown local
priority string `px`. -/
theorem c7_priority_witness :
    linearPriorityToFile 0 sampleConfig ∈ (["p1", "p2", "p3"] : List String) ∧
    ((0 : Int) ≤ 1 → linearPriorityToFile 0 sampleConfig = "p1") ∧
    ((0 : Int) = 2 → linearPriorityToFile 0 sampleConfig = "p2") ∧
    ((2 : Int) < 0 → linearPriorityToFile 0 sampleConfig = "p3") ∧
    filePriorityToLinear "px" sampleConfig = 3 :=
  c7_priority_amended sampleConfig 0 "px" (by decide)

/-- C8: renaming a todo file whose basename has the four-token shape
replaces only the status and priority tokens and keeps the directory, the
sequence id and the (possibly hyphenated) slug; a basename with fewer than
four hyphen-separated tokens is returned unchanged. -/
theorem c8_rename_tokens (p : TPath) (ns np : String) :
    ((jsSplit (stripMd p.file) '-').length < 4 → renameTodoFile p ns np = p) ∧
    (∀ seq st pr rest, jsSplit (stripMd p.file) '-' = seq :: st :: pr :: rest →
      rest ≠ [] →
      renameTodoFile p ns np =
        ⟨p.dir, seq ++ "-" ++ ns ++ "-" ++ np ++ "-" ++
          "-".intercalate rest ++ ".md"⟩) := by
  constructor
  · intro h
    simp only [renameTodoFile]
    rw [if_pos h]
  · intro seq st pr rest hsplit hne
    simp only [renameTodoFile, hsplit]
    have hlen : ¬ (seq :: st :: pr :: rest).length < 4 := by
      cases rest with
      | nil => exact absurd rfl hne
      | cons a l => simp only [List.length_cons]; omega
    rw [if_neg hlen]
    simp

/-- Witness for C8: the spec's own example. -/
theorem c8_rename_witness :
    renameTodoFile ⟨"todos", "007-pending-p2-fix-bug.md"⟩ "ready" "p2" =
      ⟨"todos", "007-ready-p2-fix-bug.md"⟩ := by
  have h := (c8_rename_tokens ⟨"todos", "007-pending-p2-fix-bug.md"⟩ "ready" "p2").2
    "007" "pending" "p2" ["fix", "bug"] (by decide) (by decide)
  rw [h]
  decide

/-- C10: when no comment of the issue is strictly newer than the since
timestamp, comment pull returns 0 and leaves the state (files and effect
log, hence also `lastSyncedAt`) completely unchanged. -/
theorem c10_no_comment_frame (env : Env) (issue : LinearIssue) (todoPath : TPath)
    (since : Nat) (st : SyncState)
    (h : ∀ c ∈ issue.comments.getD [], ¬ since < c.createdAt) :
    pullCommentsFromIssue env issue todoPath since st = .ok (0, st) := by
  have hnil : newCommentsOf issue since = [] := by
    rw [newCommentsOf, List.filter_eq_nil_iff]
    intro c hc
    simpa using h c hc
  simp [pullCommentsFromIssue, hnil]

/-- Witness for C10: an issue whose only comment predates the timestamp. -/
theorem c10_no_comment_frame_witness :
    pullCommentsFromIssue c9Env c10Issue c4Path 5 c4St = .ok (0, c4St) :=
  c10_no_comment_frame c9Env c10Issue c4Path 5 c4St (by decide)

/-- C4: comment pull selects exactly the comments strictly newer than the
since timestamp, keeps the remote order (so ascending creation order when
the remote returns them sorted), never selects a comment at or before the
timestamp, returns the count, and appends each selected comment's rendered
block exactly once to the trimmed body. -/
theorem c4_comment_pull (env : Env) (issue : LinearIssue) (todoPath : TPath)
    (since : Nat) (st : SyncState) (node : FileNode)
    (hn : readFile st.fs todoPath = some node) :
    (∀ c ∈ newCommentsOf issue since, since < c.createdAt) ∧
    (∀ c ∈ issue.comments.getD [], since < c.createdAt →
      c ∈ newCommentsOf issue since) ∧
    (∀ c ∈ issue.comments.getD [], c.createdAt ≤ since →
      c ∉ newCommentsOf issue since) ∧
    (newCommentsOf issue since).Sublist (issue.comments.getD []) ∧
    ((issue.comments.getD []).Pairwise (fun a b => a.createdAt ≤ b.createdAt) →
      (newCommentsOf issue since).Pairwise (fun a b => a.createdAt ≤ b.createdAt)) ∧
    (newCommentsOf issue since ≠ [] →
      pullCommentsFromIssue env issue todoPath since st =
        .ok ((newCommentsOf issue since).length,
          writeTextOp env st todoPath
            { node.data with linear_synced_at := some env.now }
            (jsTrimEnd node.body ++ "\n" ++
              (newCommentsOf issue since).foldl
                (fun acc c => acc ++ commentBlock c) ""))) := by
  refine ⟨?_, ?_, ?_, ?_, ?_, ?_⟩
  · intro c hc
    have := List.mem_filter.mp hc
    simpa using this.2
  · intro c hc hlt
    exact List.mem_filter.mpr ⟨hc, by simpa using hlt⟩
  · intro c _ hle hmem
    have := List.mem_filter.mp hmem
    simp only [decide_eq_true_eq] at this
    omega
  · exact List.filter_sublist _
  · intro hpw
    exact hpw.sublist (List.filter_sublist _)
  · intro hne
    have hlen : ¬ (newCommentsOf issue since).length = 0 := by
      simpa [List.length_eq_zero] using hne
    simp only [pullCommentsFromIssue, hlen, if_neg, readTextOp, hn]
    simp

/-- Witness for C4: two new comments after the timestamp, one older one. -/
theorem c4_comment_pull_witness :
    (∀ c ∈ newCommentsOf c4Issue 5, 5 < c.createdAt) ∧
    pullCommentsFromIssue c9Env c4Issue c4Path 5 c4St =
      .ok ((newCommentsOf c4Issue 5).length,
        writeTextOp c9Env c4St c4Path
          { c4Node.data with linear_synced_at := some c9Env.now }
          (jsTrimEnd c4Node.body ++ "\n" ++
            (newCommentsOf c4Issue 5).foldl
              (fun acc c => acc ++ commentBlock c) "")) := by
  have h := c4_comment_pull c9Env c4Issue c4Path 5 c4St c4Node (by decide)
  exact ⟨h.1, h.2.2.2.2.2 (by decide)⟩

/-- C9: every metadata write preserves the pairing of `linear_id` and
`linear_synced_at`: an update that sets `linear_id` also sets
`linear_synced_at`; a record created by push-create carries both fields;
every record imported by the new-issue pull carries both fields. -/
theorem c9_link_invariant :
    (∀ (env : Env) (p : TPath) (u : FmUpdates) (st st' : SyncState),
      u.linear_id.isSome →
      updateTodoFrontmatterOp env p u st = .ok st' →
      ∃ n', readFile st'.fs p = some n' ∧
        n'.data.linear_id = u.linear_id ∧
        n'.data.linear_synced_at = some (u.linear_synced_at.getD env.now)) ∧
    (∀ (env : Env) (config : LinearConfig) (todo : TodoFile)
        (parent : Option String) (st st' : SyncState) (ident : String),
      pushCreate env config todo parent false st = .ok (ident, st') →
      ∃ n', readFile st'.fs todo.path = some n' ∧
        n'.data.linear_id = some ident ∧
        n'.data.linear_synced_at = some env.now) ∧
    (∀ (env : Env) (config : LinearConfig) (todosDir : String)
        (ids : List String) (maxE : Option Nat) (st st' : SyncState)
        (created : List TodoFile),
      pullNewIssues env config todosDir ids maxE st = .ok (created, st') →
      ∀ t ∈ created, t.frontmatter.linear_id.isSome ∧
        t.frontmatter.linear_synced_at.isSome) := by
  have hupd : ∀ (env : Env) (p : TPath) (u : FmUpdates) (st st' : SyncState),
      u.linear_id.isSome →
      updateTodoFrontmatterOp env p u st = .ok st' →
      ∃ n', readFile st'.fs p = some n' ∧
        n'.data.linear_id = u.linear_id ∧
        n'.data.linear_synced_at = some (u.linear_synced_at.getD env.now) := by
    intro env p u st st' hid hok
    rw [updateTodoFrontmatterOp, readTextOp] at hok
    cases hread : readFile st.fs p with
    | none => rw [hread] at hok; exact absurd hok (by simp)
    | some node =>
      rw [hread] at hok
      simp only [hid, Option.isSome_some, true_or, if_pos, Except.ok.injEq] at hok
      subst hok
      refine ⟨_, readFile_fsWrite _ _ _ _ _, ?_, ?_⟩
      · simp [mergeFm, Option.orElse, hid]
        cases hu : u.linear_id with
        | none => rw [hu] at hid; simp at hid
        | some v => simp
      · simp
  refine ⟨hupd, ?_, ?_⟩
  · intro env config todo parent st st' ident hok
    rw [pushCreate] at hok
    cases hc : createIssueOp env st
        { teamId := config.teamId, title := extractTitle todo.body,
          description := jsTrim todo.body,
          priority := filePriorityToLinear todo.frontmatter.priority config,
          stateId := (fileStatusToLinearState todo.frontmatter.status env.states config).map (·.id),
          parentId := parent, projectId := config.projectId } with
    | error e => rw [hc] at hok; exact absurd hok (by simp)
    | ok v =>
      rw [hc] at hok
      simp only [Bool.false_eq_true, if_neg, if_false] at hok
      cases hu : updateTodoFrontmatterOp env todo.path
          { linear_id := some v.1.identifier, linear_synced_at := some env.now } v.2 with
      | error e => rw [hu] at hok; exact absurd hok (by simp)
      | ok st2 =>
        rw [hu] at hok
        simp only [Except.ok.injEq, Prod.mk.injEq] at hok
        obtain ⟨hident, hst⟩ := hok
        subst hst
        obtain ⟨n', hn1, hn2, hn3⟩ := hupd env todo.path _ v.2 st2 (by simp) hu
        refine ⟨n', hn1, ?_, ?_⟩
        · rw [hn2]; simp [hident]
        · simpa using hn3
  · intro env config todosDir ids maxE st st' created hok
    rw [pullNewIssues] at hok
    cases hl : env.listIssues with
    | error e => rw [hl] at hok; exact absurd hok (by simp)
    | ok issues =>
      rw [hl] at hok
      cases hemp : (issues.filter (fun i => ¬ ids.contains i.identifier)).isEmpty with
      | true =>
        simp only [hemp, if_pos, Except.ok.injEq, Prod.mk.injEq, reduceIte] at hok
        obtain ⟨hcr, _⟩ := hok
        subst hcr
        intro t ht
        exact absurd ht (List.not_mem_nil t)
      | false =>
        simp only [hemp, Except.ok.injEq, Prod.mk.injEq, Bool.false_eq_true, reduceIte] at hok
        obtain ⟨hcr, _⟩ := hok
        subst hcr
        exact importStep_fold_inv env config todosDir _
          (fun issueId issue => by
            constructor <;> simp [mkImportedTodo]) _ _
          (by intro t ht; exact absurd ht (List.not_mem_nil t))

/-- Witness for C9: setting `linear_id` on a never-synced record also sets
`linear_synced_at` to the current time. -/
theorem c9_link_invariant_witness :
    ∃ n', readFile c9After.fs c9Path = some n' ∧
      n'.data.linear_id = c9Upd.linear_id ∧
      n'.data.linear_synced_at = some (c9Upd.linear_synced_at.getD c9Env.now) :=
  (c9_link_invariant).1 c9Env c9Path c9Upd c9St c9After (by decide) (by decide)

/-- C2 counterexample: a record with neither side changed is counted as
skipped, but the pass leaves the file bit-for-bit unchanged — its
`lastSyncedAt` stays 5 and is not refreshed to the current time 10. -/
theorem c2_skip_counterexample :
    (syncAll cEnvSkip sampleConfig "todos" cFsSkip false).2.skipped = 1 ∧
    (syncAll cEnvSkip sampleConfig "todos" cFsSkip false).1 =
      { fs := cFsSkip, events := [] } ∧
    readFile (syncAll cEnvSkip sampleConfig "todos" cFsSkip false).1.fs cPathSkip =
      some cNodeSkip ∧
    cNodeSkip.data.linear_synced_at = some 5 ∧
    cEnvSkip.now = 10 ∧
    ((readFile (syncAll cEnvSkip sampleConfig "todos" cFsSkip false).1.fs cPathSkip).map
        (fun n => n.data.linear_synced_at)) ≠ some (some cEnvSkip.now) := by decide

/-- C2 (amended): a record with neither side changed is counted as skipped
and left untouched (`lastSyncedAt` is not refreshed); consequently a full
sync over unchanged records performs no effect at all, and a second run
returns the identical result (zero pushed and pulled counts) without
advancing any `lastSyncedAt`. -/
theorem c2_skip_amended (env : Env) (config : LinearConfig) (todosDir : String)
    (fsInit : FS)
    (hall : ∀ t ∈ loadTodoFiles fsInit, unchangedLinked env fsInit t)
    (issues : List LinearIssue)
    (hlist : env.listIssues = .ok issues)
    (hknown : ∀ i ∈ issues,
      i.identifier ∈ (loadTodoFiles fsInit).filterMap linkedIdOf) :
    syncAll env config todosDir fsInit false =
      ({ fs := fsInit, events := [] },
       { skipped := (loadTodoFiles fsInit).length }) ∧
    syncAll env config todosDir
        (syncAll env config todosDir fsInit false).1.fs false =
      ({ fs := fsInit, events := [] },
       { skipped := (loadTodoFiles fsInit).length }) := by
  have h1 : syncAll env config todosDir fsInit false =
      ({ fs := fsInit, events := [] },
       { skipped := (loadTodoFiles fsInit).length }) := by
    simp only [syncAll]
    rw [c2_fold env config false fsInit (loadTodoFiles fsInit) hall [] {} []]
    simp only [Bool.not_false, if_pos, List.nil_append]
    have hfilt : issues.filter
        (fun i => ¬ ((loadTodoFiles fsInit).filterMap linkedIdOf).contains i.identifier) = [] := by
      rw [List.filter_eq_nil_iff]
      intro i hi
      have := hknown i hi
      simp [List.elem_iff, this]
    rw [pullNewIssues, hlist]
    simp only [hfilt, List.isEmpty_nil, if_pos, reduceIte]
    simp
  refine ⟨h1, ?_⟩
  rw [h1]
  exact h1

/-- Witness for C2 (amended) on a one-record directory with an unchanged
linked record whose remote issue is already known locally. -/
theorem c2_skip_amended_witness :
    syncAll cEnvSkip sampleConfig "todos" cFsSkip false =
      ({ fs := cFsSkip, events := [] },
       { skipped := (loadTodoFiles cFsSkip).length }) := by
  have hload : loadTodoFiles cFsSkip = [cTodoSkip] := by decide
  exact (c2_skip_amended cEnvSkip sampleConfig "todos" cFsSkip
    (by
      intro t ht
      rw [hload] at ht
      rcases List.mem_singleton.mp ht with rfl
      exact ⟨"ENG-1", by decide, cIssueSkip, by decide, by decide, cNodeSkip,
        by decide, by decide⟩)
    [cIssueSkip] (by decide)
    (by
      intro i hi
      rcases List.mem_singleton.mp hi with rfl
      rw [hload]
      decide)).1

/-- C3 counterexample: in the conflict world the live run increments
`pulled.updated` to 1 while the dry run leaves it 0, although both runs
report the identical conflict classification — so the counters are not
incremented to the same values. -/
theorem c3_dry_run_counterexample :
    (syncAll cEnvConflict sampleConfig "todos" cFsConflict false).2.pulled.updated = 1 ∧
    (syncAll cEnvConflict sampleConfig "todos" cFsConflict true).2.pulled.updated = 0 ∧
    (syncAll cEnvConflict sampleConfig "todos" cFsConflict false).2.conflicts =
      (syncAll cEnvConflict sampleConfig "todos" cFsConflict true).2.conflicts ∧
    (syncAll cEnvConflict sampleConfig "todos" cFsConflict false).2.pulled.updated ≠
      (syncAll cEnvConflict sampleConfig "todos" cFsConflict true).2.pulled.updated := by decide

/-- C3 (amended): a dry run performs no file write and no remote call and
classifies each record exactly as a live run started from the same state
(identical conflict list and skip count per record); `pushed.created` and
`pushed.updated` increment identically when the live mutation succeeds;
but in the pull branch the dry run increments `pulled.updated`
unconditionally and counts no comments, in the conflict branch it
increments neither winner counter, and `pulled.comments` / `pulled.created`
stay 0 for the whole dry pass. -/
theorem c3_dry_run_amended :
    (∀ (env : Env) (config : LinearConfig) (todosDir : String) (fsInit : FS),
      (syncAll env config todosDir fsInit true).1 = { fs := fsInit, events := [] } ∧
      (syncAll env config todosDir fsInit true).2.pulled.comments = 0 ∧
      (syncAll env config todosDir fsInit true).2.pulled.created = 0) ∧
    (∀ (env : Env) (config : LinearConfig) (todo : TodoFile) (lid : String)
        (st : SyncState) (res : SyncResult),
      (processLinked env config true todo lid st res).2.conflicts =
        (processLinked env config false todo lid st res).2.conflicts ∧
      (processLinked env config true todo lid st res).2.skipped =
        (processLinked env config false todo lid st res).2.skipped) ∧
    (∀ (env : Env) (config : LinearConfig) (todo : TodoFile) (lid : String)
        (st : SyncState) (res : SyncResult) (issue : LinearIssue) (node : FileNode),
      env.fetch lid = .ok issue →
      readFile st.fs todo.path = some node →
      issue.updatedAt ≤ todo.frontmatter.linear_synced_at.getD 0 →
      todo.frontmatter.linear_synced_at.getD 0 < node.mtime →
      (processLinked env config true todo lid st res).2.pushed.updated =
        res.pushed.updated + 1 ∧
      (∀ st', pushUpdate env config todo st = .ok st' →
        (processLinked env config false todo lid st res).2.pushed.updated =
          res.pushed.updated + 1)) ∧
    (∀ (env : Env) (config : LinearConfig) (st : SyncState) (res : SyncResult)
        (ids : List String) (todo : TodoFile),
      truthyStr todo.frontmatter.linear_id = none →
      (processTodo env config true (st, res, ids) todo).2.1.pushed.created =
        res.pushed.created + 1 ∧
      (∀ r st', pushCreate env config todo none false st = .ok (r, st') →
        (processTodo env config false (st, res, ids) todo).2.1.pushed.created =
          res.pushed.created + 1)) ∧
    (∀ (env : Env) (config : LinearConfig) (todo : TodoFile) (lid : String)
        (st : SyncState) (res : SyncResult) (issue : LinearIssue) (node : FileNode),
      env.fetch lid = .ok issue →
      readFile st.fs todo.path = some node →
      todo.frontmatter.linear_synced_at.getD 0 < issue.updatedAt →
      node.mtime ≤ todo.frontmatter.linear_synced_at.getD 0 →
      processLinked env config true todo lid st res =
        (st, { res with pulled := { res.pulled with updated := res.pulled.updated + 1 } })) ∧
    (∀ (env : Env) (config : LinearConfig) (todo : TodoFile) (lid : String)
        (st : SyncState) (res : SyncResult) (issue : LinearIssue) (node : FileNode),
      env.fetch lid = .ok issue →
      readFile st.fs todo.path = some node →
      todo.frontmatter.linear_synced_at.getD 0 < issue.updatedAt →
      todo.frontmatter.linear_synced_at.getD 0 < node.mtime →
      processLinked env config true todo lid st res =
        (st,
          if todo.frontmatter.status ≠
              (linearStateToFileStatus issue.state.name config).getD issue.state.name then
            { res with conflicts := res.conflicts ++
              [mkConflictEntry todo lid
                (if issue.updatedAt > node.mtime then "linear" else "file")
                todo.frontmatter.status
                ((linearStateToFileStatus issue.state.name config).getD issue.state.name)] }
          else res)) := by
  refine ⟨?_, ?_, ?_, ?_, ?_, ?_⟩
  · intro env config todosDir fsInit
    exact syncAll_dry_frame env config todosDir fsInit
  · intro env config todo lid st res
    exact processLinked_mode_parity env config todo lid st res
  · intro env config todo lid st res issue node hf hn hL hF
    constructor
    · rw [processLinked_push_dry env config todo lid st res issue node hf hn hL hF]
    · intro st' hpu
      rw [processLinked_push_live env config todo lid st res issue node hf hn hL hF, hpu]
  · intro env config st res ids todo hlid
    constructor
    · rw [processTodo_create_dry env config st res ids todo hlid]
    · intro r st' hok
      rw [processTodo_create_live env config st res ids todo r st' hlid hok]
  · intro env config todo lid st res issue node hf hn hL hF
    exact processLinked_pull_dry env config todo lid st res issue node hf hn hL hF
  · intro env config todo lid st res issue node hf hn hL hF
    exact processLinked_conflict_dry env config todo lid st res issue node hf hn hL hF

/-- Witness for C3 (amended): the dry pass over the conflict world leaves
the state untouched. -/
theorem c3_dry_run_amended_witness :
    (syncAll cEnvConflict sampleConfig "todos" cFsConflict true).1 =
      { fs := cFsConflict, events := [] } :=
  ((c3_dry_run_amended).1 cEnvConflict sampleConfig "todos" cFsConflict).1

/-- C5: one record's thrown remote fetch only appends an error entry that
contains that record's filename, leaves the state and every accumulated
counter intact, and the pass continues — in the five-record world where
the second record's fetch throws, the other four are fully reconciled
(four pulls) and the single error names the second record's file. -/
theorem c5_partial_failure :
    (∀ (env : Env) (config : LinearConfig) (todo : TodoFile) (lid : String)
        (st : SyncState) (res : SyncResult) (ids : List String) (e : String),
      truthyStr todo.frontmatter.linear_id = some lid →
      env.fetch lid = .error e →
      processTodo env config false (st, res, ids) todo =
        (st, { res with errors := res.errors ++ [syncErrMsg todo e] }, ids ++ [lid]) ∧
      ∃ pre post, syncErrMsg todo e = pre ++ todo.path.file ++ post) ∧
    ((syncAll c5Env sampleConfig "todos" c5Fs false).2.pulled.updated = 4 ∧
     (syncAll c5Env sampleConfig "todos" c5Fs false).2.errors =
       ["Error syncing 002-pending-p2-t2.md: network down"] ∧
     (syncAll c5Env sampleConfig "todos" c5Fs false).2.pushed.created = 0 ∧
     (syncAll c5Env sampleConfig "todos" c5Fs false).2.skipped = 0) := by
  constructor
  · intro env config todo lid st res ids e hlid hfetch
    constructor
    · rw [processTodo_linked env config false st res ids todo lid hlid]
      rw [processLinked_fetch_error env config false todo lid st res e hfetch]
    · exact ⟨"Error syncing ", ": " ++ e, by simp [syncErrMsg, String.append_assoc]⟩
  · decide

/-- Witness for C5 at the failing record of the five-record world. -/
theorem c5_partial_failure_witness :
    processTodo c5Env sampleConfig false
        ({ fs := c5Fs, events := [] }, {}, []) (c5Todo 2) =
      ({ fs := c5Fs, events := [] },
       { errors := [syncErrMsg (c5Todo 2) "network down"] }, ["ENG-2"]) ∧
    ∃ pre post, syncErrMsg (c5Todo 2) "network down" =
      pre ++ (c5Todo 2).path.file ++ post := by
  have h := (c5_partial_failure).1 c5Env sampleConfig (c5Todo 2) "ENG-2"
    { fs := c5Fs, events := [] } {} [] "network down" (by decide) (by decide)
  exact ⟨by rw [h.1]; rfl, h.2⟩

/-- C1: for a record where both the file mtime and the remote `updatedAt`
are strictly later than `lastSyncedAt`, the conflict is resolved
last-write-wins: a `ConflictEntry` (naming the strictly later side as
winner) is emitted exactly when the file status differs from the
translated remote status; when the remote is strictly later the pull is
applied (the file receives the translated remote status and priority) and
`pulled.updated` increments; when the file is strictly later the push is
applied (`pushed.updated` increments, and the update the engine sends to
the remote carries the file's mapped workflow state when it differs). -/
theorem c1_conflict_last_write_wins
    (env : Env) (config : LinearConfig) (todo : TodoFile) (lid : String)
    (issue : LinearIssue) (node : FileNode) (st : SyncState) (res : SyncResult)
    (ids : List String)
    (hlid : truthyStr todo.frontmatter.linear_id = some lid)
    (hfetch : env.fetch lid = .ok issue)
    (hnode : readFile st.fs todo.path = some node)
    (hL : todo.frontmatter.linear_synced_at.getD 0 < issue.updatedAt)
    (hF : todo.frontmatter.linear_synced_at.getD 0 < node.mtime) :
    ((processTodo env config false (st, res, ids) todo).2.1.conflicts =
      res.conflicts ++
        (if todo.frontmatter.status ≠
            (linearStateToFileStatus issue.state.name config).getD issue.state.name then
          [mkConflictEntry todo lid
            (if issue.updatedAt > node.mtime then "linear" else "file")
            todo.frontmatter.status
            ((linearStateToFileStatus issue.state.name config).getD issue.state.name)]
        else [])) ∧
    (node.mtime < issue.updatedAt →
      ∀ pr st', pullStateFromIssue env config issue todo.path st = .ok (pr, st') →
        (processTodo env config false (st, res, ids) todo).1 = st' ∧
        (processTodo env config false (st, res, ids) todo).2.1.pulled.updated =
          res.pulled.updated + 1) ∧
    (issue.updatedAt < node.mtime →
      ∀ st', pushUpdate env config todo st = .ok st' →
        (processTodo env config false (st, res, ids) todo).1 = st' ∧
        (processTodo env config false (st, res, ids) todo).2.1.pushed.updated =
          res.pushed.updated + 1) ∧
    (node.mtime < issue.updatedAt →
      ∀ ns, linearStateToFileStatus issue.state.name config = some ns → ns ≠ "" →
      node.data.status.isSome → node.data.priority.isSome →
      ∃ pr st', pullStateFromIssue env config issue todo.path st = .ok (pr, st') ∧
        ((∀ q ∈ st.fs.map Prod.fst, q = todo.path ∨ q ≠ pr.2.getD todo.path) →
          ∃ n', readFile st'.fs (pr.2.getD todo.path) = some n' ∧
            n'.data.status = some ns ∧
            n'.data.priority = some (linearPriorityToFile issue.priority config) ∧
            n'.data.linear_synced_at = some env.now)) ∧
    (¬ node.mtime < issue.updatedAt →
      ∀ s, fileStatusToLinearState todo.frontmatter.status env.states config = some s →
        s.id ≠ issue.state.id →
        (pushUpdateInput env config todo issue).stateId = some s.id) := by
  rw [processTodo_linked env config false st res ids todo lid hlid]
  refine ⟨?_, ?_, ?_, ?_, ?_⟩
  · rcases Nat.lt_or_ge node.mtime issue.updatedAt with hW | hW
    · rw [processLinked_conflict_live_linear env config todo lid st res issue node
        hfetch hnode hL hF hW]
      cases hps : pullStateFromIssue env config issue todo.path st with
      | error pe =>
        rcases pe with ⟨e, st'⟩
        by_cases hne : todo.frontmatter.status =
          (linearStateToFileStatus issue.state.name config).getD issue.state.name <;>
          simp [hne, hW]
      | ok pv =>
        by_cases hne : todo.frontmatter.status =
          (linearStateToFileStatus issue.state.name config).getD issue.state.name <;>
          simp [hne, hW]
    · rw [processLinked_conflict_live_file env config todo lid st res issue node
        hfetch hnode hL hF (by omega)]
      have hW2 : ¬ issue.updatedAt > node.mtime := by omega
      cases hpu : pushUpdate env config todo st with
      | error pe =>
        rcases pe with ⟨e, st'⟩
        by_cases hne : todo.frontmatter.status =
          (linearStateToFileStatus issue.state.name config).getD issue.state.name <;>
          simp [hne, hW2]
      | ok st' =>
        by_cases hne : todo.frontmatter.status =
          (linearStateToFileStatus issue.state.name config).getD issue.state.name <;>
          simp [hne, hW2]
  · intro hW pr st' hps
    rw [processLinked_conflict_live_linear env config todo lid st res issue node
      hfetch hnode hL hF hW]
    rw [hps]
    by_cases hne : todo.frontmatter.status =
      (linearStateToFileStatus issue.state.name config).getD issue.state.name <;>
      simp [hne]
  · intro hW st' hpu
    rw [processLinked_conflict_live_file env config todo lid st res issue node
      hfetch hnode hL hF (by omega)]
    rw [hpu]
    by_cases hne : todo.frontmatter.status =
      (linearStateToFileStatus issue.state.name config).getD issue.state.name <;>
      simp [hne]
  · intro _ ns ht hne hcs hcp
    exact pullState_value_applied env config issue todo.path st node ns hnode hcs hcp ht hne
  · intro _ s hs hsid
    simp [pushUpdateInput, hs, hsid]

/-- Witness for C1 in the conflict world where the remote side is strictly
later: the emitted conflict entry carries winner `linear`. -/
theorem c1_conflict_last_write_wins_witness :
    (processTodo cEnvConflict sampleConfig false
        ({ fs := cFsConflict, events := [] }, {}, []) cTodoConflict).2.1.conflicts =
      ({} : SyncResult).conflicts ++
        (if cTodoConflict.frontmatter.status ≠
            (linearStateToFileStatus cIssueConflict.state.name sampleConfig).getD
              cIssueConflict.state.name then
          [mkConflictEntry cTodoConflict "ENG-2"
            (if cIssueConflict.updatedAt > cNodeConflict.mtime then "linear" else "file")
            cTodoConflict.frontmatter.status
            ((linearStateToFileStatus cIssueConflict.state.name sampleConfig).getD
              cIssueConflict.state.name)]
        else []) :=
  (c1_conflict_last_write_wins cEnvConflict sampleConfig cTodoConflict "ENG-2"
    cIssueConflict cNodeConflict { fs := cFsConflict, events := [] } {} []
    (by decide) (by decide) (by decide) (by decide) (by decide)).1

end LinearSync
